import Mathlib

/-!
Verification development for the signia signature-composition library.

The definitions below are a shallow embedding of `src/signia/_core.py`:
`merge_signatures` and its helpers, and the `combine` argument-redistribution
wrapper together with the parts of CPython's `inspect.Signature` binding
machinery (`bind`, `bind_partial`, `apply_defaults`, `BoundArguments.args`,
`BoundArguments.kwargs`) that the wrapper uses.  Python values that occur as
defaults, annotations and call arguments are modelled by the small closed
type `Val`; `Parameter.empty` is modelled by `Option.none`.
-/

namespace Signia


/-- The five Python parameter kinds (`inspect._ParameterKind`). -/
inductive ParamKind where
  | positionalOnly
  | positionalOrKeyword
  | varPositional
  | keywordOnly
  | varKeyword
  deriving DecidableEq, Repr

/-- Position of a kind in `_PARAMETER_KIND_ORDER`. -/
def kindRank : ParamKind → Nat
  | .positionalOnly => 0
  | .positionalOrKeyword => 1
  | .varPositional => 2
  | .keywordOnly => 3
  | .varKeyword => 4

/-- The `.name` attribute of an `inspect._ParameterKind` member, as used in
conflict messages. -/
def ParamKind.pyName : ParamKind → String
  | .positionalOnly => "POSITIONAL_ONLY"
  | .positionalOrKeyword => "POSITIONAL_OR_KEYWORD"
  | .varPositional => "VAR_POSITIONAL"
  | .keywordOnly => "KEYWORD_ONLY"
  | .varKeyword => "VAR_KEYWORD"

/-- Python values appearing as defaults, annotations and call arguments.
With `from __future__ import annotations` in force, annotations are strings. -/
inductive Val where
  | vint (i : Int)
  | vstr (s : String)
  | vbool (b : Bool)
  | vnone
  deriving DecidableEq, Repr

/-- Python `repr` of a `Val`, as interpolated by `!r` in error messages. -/
def pyRepr : Val → String
  | .vint i => toString i
  | .vstr s => "'" ++ s ++ "'"
  | .vbool b => if b then "True" else "False"
  | .vnone => "None"

/-- Embedding of `inspect.Parameter`: `default`/`annot` being `none` models
`Parameter.empty`. -/
structure Parameter where
  name : String
  kind : ParamKind
  default : Option Val
  annot : Option Val
  deriving DecidableEq, Repr

/-- Embedding of `inspect.Signature`: ordered parameters plus optional return
annotation (`none` models `Signature.empty`). -/
structure Signature where
  params : List Parameter
  retAnnot : Option Val
  deriving DecidableEq, Repr

/-- One entry of the `ConflictDetail` triples `(kind, existing, incoming)`
produced by `_detect_parameter_conflicts`. -/
inductive ConflictDetail where
  | kindConflict (a b : ParamKind)
  | defaultConflict (a b : Val)
  | annotConflict (a b : Val)
  deriving DecidableEq, Repr

/-- The `policy` option of `merge_signatures` after `_normalise_policy`. -/
inductive Policy where
  | preferFirst
  | preferLast
  deriving DecidableEq, Repr

/-- The source tag returned by `_resolve_parameter_conflict`
(`"existing"`, `"incoming"`, `"custom"`, `"unresolved"`). -/
inductive ResolutionSource where
  | existingSource
  | incomingSource
  | customSource
  | unresolvedSource
  deriving DecidableEq, Repr

/-- The `on_conflict` option after `_normalise_resolver`: `raiseResolver`
models both `None` and `"raise"`; `custom` carries a caller-supplied
resolver callable. -/
inductive Resolver where
  | raiseResolver
  | preferAnnotated
  | preferDefaulted
  | custom (f : String → Parameter → Parameter → List ConflictDetail → Parameter)

/-- Python exceptions raised by the embedded code.
`signatureConflictError` models `SignatureConflictError` (a `ValueError`
subclass). -/
inductive PyError where
  | typeError (msg : String)
  | valueError (msg : String)
  | signatureConflictError (msg : String)
  deriving DecidableEq, Repr

instance instDecEqExcept {ε α : Type} [DecidableEq ε] [DecidableEq α] :
    DecidableEq (Except ε α) := fun a b =>
  match a, b with
  | .ok x, .ok y =>
      if h : x = y then .isTrue (by rw [h])
      else .isFalse (fun hc => by cases hc; exact h rfl)
  | .error e, .error f =>
      if h : e = f then .isTrue (by rw [h])
      else .isFalse (fun hc => by cases hc; exact h rfl)
  | .ok _, .error _ => .isFalse (fun hc => by cases hc)
  | .error _, .ok _ => .isFalse (fun hc => by cases hc)

/-! ## The signature merge engine (`merge_signatures` and helpers) -/

/-- Embedding of `_PARAMETER_KIND_ORDER`. -/
def _PARAMETER_KIND_ORDER : List ParamKind :=
  [.positionalOnly, .positionalOrKeyword, .varPositional, .keywordOnly, .varKeyword]

/-- Embedding of `_apply_policy`: return `(primary, secondary)` according to `policy`. -/
def _apply_policy (existing incoming : Parameter) (policy : Policy) :
    Parameter × Parameter :=
  match policy with
  | .preferLast => (incoming, existing)
  | .preferFirst => (existing, incoming)

/-- Embedding of `_detect_parameter_conflicts`. -/
def _detect_parameter_conflicts (primary secondary : Parameter)
    (compareDefaults compareAnnots : Bool) : List ConflictDetail :=
  (if primary.kind ≠ secondary.kind then
    [ConflictDetail.kindConflict primary.kind secondary.kind] else [])
  ++ (match compareDefaults, primary.default, secondary.default with
      | true, some a, some b =>
          if a ≠ b then [ConflictDetail.defaultConflict a b] else []
      | _, _, _ => [])
  ++ (match compareAnnots, primary.annot, secondary.annot with
      | true, some a, some b =>
          if a ≠ b then [ConflictDetail.annotConflict a b] else []
      | _, _, _ => [])

/-- Embedding of `_select_parameter_candidate`. -/
def _select_parameter_candidate (existing incoming : Parameter) (policy : Policy)
    (pred : Parameter → Bool) : Parameter × ResolutionSource :=
  let candidates : List (ResolutionSource × Parameter) :=
    (if pred existing then [(.existingSource, existing)] else [])
    ++ (if pred incoming then [(.incomingSource, incoming)] else [])
  let candidates :=
    if candidates.isEmpty then
      [(.existingSource, existing), (.incomingSource, incoming)]
    else candidates
  match policy with
  | .preferLast =>
      let c := candidates.getLastD (.existingSource, existing)
      (c.2, c.1)
  | .preferFirst =>
      let c := candidates.headD (.existingSource, existing)
      (c.2, c.1)

/-- Embedding of `_resolve_parameter_conflict`. -/
def _resolve_parameter_conflict (name : String) (existing incoming : Parameter)
    (conflicts : List ConflictDetail) (policy : Policy) (resolver : Resolver) :
    Option Parameter × ResolutionSource :=
  match resolver with
  | .custom f => (some (f name existing incoming conflicts), .customSource)
  | .raiseResolver => (none, .unresolvedSource)
  | .preferAnnotated =>
      let r := _select_parameter_candidate existing incoming policy
        (fun q => q.annot.isSome)
      (some r.1, r.2)
  | .preferDefaulted =>
      let r := _select_parameter_candidate existing incoming policy
        (fun q => q.default.isSome)
      (some r.1, r.2)

/-- Embedding of `_finalise_resolved_parameter`. -/
def _finalise_resolved_parameter (resolved counterpart : Parameter)
    (conflicts : List ConflictDetail) : Parameter :=
  let hasDefaultConflict := conflicts.any fun c =>
    match c with | .defaultConflict _ _ => true | _ => false
  let hasAnnotConflict := conflicts.any fun c =>
    match c with | .annotConflict _ _ => true | _ => false
  let updated := resolved
  let updated :=
    if !hasDefaultConflict && updated.default.isNone && counterpart.default.isSome
    then { updated with default := counterpart.default }
    else updated
  let updated :=
    if !hasAnnotConflict && updated.annot.isNone && counterpart.annot.isSome
    then { updated with annot := counterpart.annot }
    else updated
  updated

/-- Text of one conflict in `_raise_parameter_conflict`'s message. -/
def conflictDetailText : ConflictDetail → String
  | .kindConflict a b => "kind " ++ a.pyName ++ " vs " ++ b.pyName
  | .defaultConflict a b => "default " ++ pyRepr a ++ " vs " ++ pyRepr b
  | .annotConflict a b => "annotation " ++ pyRepr a ++ " vs " ++ pyRepr b

/-- The message of the `SignatureConflictError` raised by
`_raise_parameter_conflict`. -/
def conflictMessage (name : String) (conflicts : List ConflictDetail) : String :=
  "Parameter '" ++ name ++ "' conflict: " ++
    String.intercalate ", " (conflicts.map conflictDetailText)

/-- Embedding of `_merge_parameter_metadata`. -/
def _merge_parameter_metadata (name : String) (existing incoming : Parameter)
    (policy : Policy) (resolver : Resolver)
    (compareDefaults compareAnnots : Bool) : Except PyError Parameter :=
  let pq := _apply_policy existing incoming policy
  let primary := pq.1
  let secondary := pq.2
  let conflicts :=
    _detect_parameter_conflicts primary secondary compareDefaults compareAnnots
  if conflicts.isEmpty then
    let default :=
      match primary.default with
      | none => secondary.default
      | some d => some d
    let annot :=
      match primary.annot with
      | none => secondary.annot
      | some a => some a
    .ok { primary with default := default, annot := annot }
  else
    match _resolve_parameter_conflict name existing incoming conflicts policy resolver with
    | (none, _) => .error (.signatureConflictError (conflictMessage name conflicts))
    | (some resolved, source) =>
      if resolved.name ≠ name then
        .error (.signatureConflictError
          ("Conflict resolver must keep parameter name '" ++ name ++
            "', got '" ++ resolved.name ++ "'."))
      else
        let counterpart : Option Parameter :=
          match source with
          | .existingSource => some incoming
          | .incomingSource => some existing
          | _ => none
        match counterpart with
        | some c => .ok (_finalise_resolved_parameter resolved c conflicts)
        | none => .ok resolved

/-- The five ordered buckets of `_initial_parameter_buckets`, one per kind,
each an insertion-ordered mapping from name to parameter. -/
structure Buckets where
  positionalOnly : List Parameter
  positionalOrKeyword : List Parameter
  varPositional : List Parameter
  keywordOnly : List Parameter
  varKeyword : List Parameter
  deriving DecidableEq, Repr

def Buckets.get (b : Buckets) : ParamKind → List Parameter
  | .positionalOnly => b.positionalOnly
  | .positionalOrKeyword => b.positionalOrKeyword
  | .varPositional => b.varPositional
  | .keywordOnly => b.keywordOnly
  | .varKeyword => b.varKeyword

def Buckets.set (b : Buckets) (k : ParamKind) (l : List Parameter) : Buckets :=
  match k with
  | .positionalOnly => { b with positionalOnly := l }
  | .positionalOrKeyword => { b with positionalOrKeyword := l }
  | .varPositional => { b with varPositional := l }
  | .keywordOnly => { b with keywordOnly := l }
  | .varKeyword => { b with varKeyword := l }

/-- Embedding of `_initial_parameter_buckets`. -/
def _initial_parameter_buckets : Buckets := ⟨[], [], [], [], []⟩

/-- Embedding of `_add_parameter_to_buckets`: an `OrderedDict` insert of a fresh key
appends at the end of its kind bucket. -/
def bucketAppend (b : Buckets) (k : ParamKind) (p : Parameter) : Buckets :=
  b.set k (b.get k ++ [p])

/-- Embedding of `buckets[kind][name] = merged` for an existing key: an `OrderedDict`
assignment replaces the value in place, keeping its position. -/
def bucketReplace (b : Buckets) (k : ParamKind) (name : String) (merged : Parameter) :
    Buckets :=
  b.set k ((b.get k).map fun q => if q.name = name then merged else q)

/-- Embedding of `del buckets[kind][name]`. -/
def bucketDelete (b : Buckets) (k : ParamKind) (name : String) : Buckets :=
  b.set k ((b.get k).filter fun q => q.name ≠ name)

/-- Embedding of `_iter_bucketed_parameters`: concatenate the buckets in canonical kind
order. -/
def _iter_bucketed_parameters (b : Buckets) : List Parameter :=
  (_PARAMETER_KIND_ORDER.map b.get).flatten

/-- The loop state of `merge_signatures`: the buckets plus the
`name_to_parameter` and `name_to_kind` dictionaries. -/
structure MergeState where
  buckets : Buckets
  nameToParameter : List (String × Parameter)
  nameToKind : List (String × ParamKind)

/-- Replace the value stored under an existing key of an association list. -/
def updateAssoc {β : Type} (l : List (String × β)) (k : String) (v : β) :
    List (String × β) :=
  l.map fun e => if e.1 = k then (k, v) else e

/-- The body of `merge_signatures`' inner loop, for one parameter.
The `getD existing.kind` fallback is never taken: `name_to_kind` holds every
key of `name_to_parameter` (in Python both dictionaries are updated
together). -/
def mergeStep (policy : Policy) (resolver : Resolver)
    (compareDefaults compareAnnots : Bool) (st : MergeState) (p : Parameter) :
    Except PyError MergeState :=
  match List.lookup p.name st.nameToParameter with
  | none =>
      .ok { buckets := bucketAppend st.buckets p.kind p,
            nameToParameter := st.nameToParameter ++ [(p.name, p)],
            nameToKind := st.nameToKind ++ [(p.name, p.kind)] }
  | some existing => do
      let merged ← _merge_parameter_metadata p.name existing p policy resolver
        compareDefaults compareAnnots
      let previousKind := (List.lookup p.name st.nameToKind).getD existing.kind
      if previousKind = merged.kind then
        .ok { st with
              buckets := bucketReplace st.buckets previousKind p.name merged,
              nameToParameter := updateAssoc st.nameToParameter p.name merged }
      else
        .ok { buckets :=
                bucketAppend (bucketDelete st.buckets previousKind p.name)
                  merged.kind merged,
              nameToParameter := updateAssoc st.nameToParameter p.name merged,
              nameToKind := updateAssoc st.nameToKind p.name merged.kind }

/-- The body of `merge_signatures`' outer loop, for one source signature:
fold the parameters, then override the running return annotation when this
signature's is non-empty. -/
def mergeSig (policy : Policy) (resolver : Resolver)
    (compareDefaults compareAnnots : Bool) (acc : MergeState × Option Val)
    (sig : Signature) : Except PyError (MergeState × Option Val) := do
  let st ← sig.params.foldlM (mergeStep policy resolver compareDefaults compareAnnots) acc.1
  let ret :=
    match sig.retAnnot with
    | some a => some a
    | none => acc.2
  .ok (st, ret)

/-- Embedding of `merge_signatures` over already-extracted signatures.  The Python
defaults are `policy="prefer-first"`, `on_conflict=None`,
`compare_defaults=True`, `compare_annotations=True`. -/
def merge_signatures (sigs : List Signature) (policy : Policy)
    (onConflict : Resolver) (compareDefaults compareAnnots : Bool) :
    Except PyError Signature :=
  match sigs with
  | [] => .error (.valueError "merge_signatures requires at least one callable")
  | _ => do
    let acc ← sigs.foldlM (mergeSig policy onConflict compareDefaults compareAnnots)
      (⟨_initial_parameter_buckets, [], []⟩, none)
    .ok { params := _iter_bucketed_parameters acc.1.buckets, retAnnot := acc.2 }

/-! Sanity checks of the merge engine against the repository's test suite
(`test_merge.py`). -/

/-- Embedding of `left(a: int, /, b: str, *args: float, c: int = 1, **kwargs: bool) -> str`. -/
def leftSig : Signature :=
  { params :=
      [⟨"a", .positionalOnly, none, some (.vstr "int")⟩,
       ⟨"b", .positionalOrKeyword, none, some (.vstr "str")⟩,
       ⟨"args", .varPositional, none, some (.vstr "float")⟩,
       ⟨"c", .keywordOnly, some (.vint 1), some (.vstr "int")⟩,
       ⟨"kwargs", .varKeyword, none, some (.vstr "bool")⟩],
    retAnnot := some (.vstr "str") }

/-- Embedding of `right(a: int, /, *, c: int = 1, d: float, **kwargs: bool) -> str`. -/
def rightSig : Signature :=
  { params :=
      [⟨"a", .positionalOnly, none, some (.vstr "int")⟩,
       ⟨"c", .keywordOnly, some (.vint 1), some (.vstr "int")⟩,
       ⟨"d", .keywordOnly, none, some (.vstr "float")⟩,
       ⟨"kwargs", .varKeyword, none, some (.vstr "bool")⟩],
    retAnnot := some (.vstr "str") }

/-- Embedding of `right_conflicting` from `test_merge_signatures_conflicting_defaults_raise`. -/
def rightConflictingSig : Signature :=
  { params :=
      [⟨"a", .positionalOnly, none, some (.vstr "int")⟩,
       ⟨"c", .keywordOnly, some (.vint 2), some (.vstr "int")⟩,
       ⟨"d", .keywordOnly, none, some (.vstr "float")⟩,
       ⟨"kwargs", .varKeyword, none, some (.vstr "bool")⟩],
    retAnnot := some (.vstr "str") }

/-! ## CPython argument binding (`inspect.Signature._bind` and friends)

`combine`'s wrapper calls `merged_signature.bind`, `apply_defaults`,
`bind_partial` and the `BoundArguments.args`/`.kwargs` properties; the
definitions below embed those parts of CPython 3.11's `inspect` module. -/

/-- The value bound to one parameter in a `BoundArguments.arguments`
mapping: a plain value, a `*args` tuple, or a `**kwargs` dictionary. -/
inductive Binding where
  | one (v : Val)
  | star (vs : List Val)
  | starstar (kvs : List (String × Val))
  deriving DecidableEq, Repr

/-- The plain value held by a binding.  Reached only for bindings of
non-variadic parameters, which are always `one`. -/
def Binding.asOne : Binding → Val
  | .one v => v
  | _ => .vnone

def Binding.asStarList : Binding → List Val
  | .star vs => vs
  | .one v => [v]
  | .starstar _ => []

def Binding.asStarStar : Binding → List (String × Val)
  | .starstar kvs => kvs
  | _ => []

/-- Embedding of `dict.pop`: drop the entry for a key from a keyword mapping. -/
def kwRemove (kwargs : List (String × Val)) (n : String) : List (String × Val) :=
  kwargs.filter fun e => e.1 ≠ n

/-- Phase 1 of CPython `Signature._bind`: consume the positional arguments.
Returns the positionally-bound arguments (in parameter order) and the
parameters handed to the keyword phase (`parameters_ex` followed by the
unconsumed rest). -/
def bindPosPhase (isPartial : Bool) :
    List Parameter → List Val → List (String × Val) →
    Except PyError (List (String × Binding) × List Parameter)
  | [], [], _ => .ok ([], [])
  | [], _ :: _, _ => .error (.typeError "too many positional arguments")
  | p :: rest, [], kwargs =>
      if p.kind = .varPositional then .ok ([], rest)
      else if (List.lookup p.name kwargs).isSome then
        if p.kind = .positionalOnly then
          .error (.typeError ("'" ++ p.name ++
            "' parameter is positional only, but was passed as a keyword"))
        else .ok ([], p :: rest)
      else if p.kind = .varKeyword ∨ p.default.isSome then .ok ([], p :: rest)
      else if isPartial then .ok ([], p :: rest)
      else .error (.typeError ("missing a required argument: '" ++ p.name ++ "'"))
  | p :: rest, a :: argsRest, kwargs =>
      if p.kind = .varKeyword ∨ p.kind = .keywordOnly then
        .error (.typeError "too many positional arguments")
      else if p.kind = .varPositional then
        .ok ([(p.name, .star (a :: argsRest))], rest)
      else if (List.lookup p.name kwargs).isSome ∧ p.kind ≠ .positionalOnly then
        .error (.typeError ("multiple values for argument '" ++ p.name ++ "'"))
      else do
        let r ← bindPosPhase isPartial rest argsRest kwargs
        .ok ((p.name, .one a) :: r.1, r.2)

/-- Phase 2 of CPython `Signature._bind`: bind keyword arguments against the
remaining parameters.  Returns the keyword-bound arguments in parameter
order, the name of a `**kwargs` parameter when one remains, and the
still-unclaimed keyword arguments. -/
def bindKwPhase (isPartial : Bool) :
    List Parameter → List (String × Val) →
    Except PyError (List (String × Binding) × Option String × List (String × Val))
  | [], kwargs => .ok ([], none, kwargs)
  | p :: rest, kwargs =>
      if p.kind = .varKeyword then do
        let r ← bindKwPhase isPartial rest kwargs
        let kwName := match r.2.1 with
          | some n => some n
          | none => some p.name
        .ok (r.1, kwName, r.2.2)
      else if p.kind = .varPositional then
        bindKwPhase isPartial rest kwargs
      else
        match List.lookup p.name kwargs with
        | none =>
            if !isPartial && p.default.isNone then
              .error (.typeError ("missing a required argument: '" ++ p.name ++ "'"))
            else bindKwPhase isPartial rest kwargs
        | some v =>
            if p.kind = .positionalOnly then
              .error (.typeError ("'" ++ p.name ++
                "' parameter is positional only, but was passed as a keyword"))
            else do
              let r ← bindKwPhase isPartial rest (kwRemove kwargs p.name)
              .ok ((p.name, .one v) :: r.1, r.2.1, r.2.2)

/-- CPython `Signature._bind`: `Signature.bind` when `isPartial := false`,
`Signature.bind_partial` when `isPartial := true`.  Produces the
`BoundArguments.arguments` mapping in parameter order, the `**kwargs`
bundle (bound only when non-empty) last. -/
def pyBind (sig : Signature) (args : List Val) (kwargs : List (String × Val))
    (isPartial : Bool) : Except PyError (List (String × Binding)) := do
  let ph1 ← bindPosPhase isPartial sig.params args kwargs
  let ph2 ← bindKwPhase isPartial ph1.2 kwargs
  if ph2.2.2.isEmpty then .ok (ph1.1 ++ ph2.1)
  else
    match ph2.2.1 with
    | some kwName => .ok (ph1.1 ++ ph2.1 ++ [(kwName, .starstar ph2.2.2)])
    | none =>
        .error (.typeError ("got an unexpected keyword argument '" ++
          (ph2.2.2.headD ("", .vnone)).1 ++ "'"))

/-- CPython `BoundArguments.apply_defaults`: rebuild the arguments mapping
in declaration order, filling absent entries with the parameter default, an
empty tuple for `*args`, or an empty dict for `**kwargs`. -/
def applyDefaults (sig : Signature) (arguments : List (String × Binding)) :
    List (String × Binding) :=
  sig.params.filterMap fun p =>
    match List.lookup p.name arguments with
    | some b => some (p.name, b)
    | none =>
        match p.default with
        | some d => some (p.name, .one d)
        | none =>
            match p.kind with
            | .varPositional => some (p.name, .star [])
            | .varKeyword => some (p.name, .starstar [])
            | _ => none

/-- CPython `BoundArguments.args`: the positional tuple reconstructed from
an arguments mapping. -/
def boundArgsOf : List Parameter → List (String × Binding) → List Val
  | [], _ => []
  | p :: rest, arguments =>
      if p.kind = .varKeyword ∨ p.kind = .keywordOnly then []
      else
        match List.lookup p.name arguments with
        | none => []
        | some b =>
            if p.kind = .varPositional then b.asStarList ++ boundArgsOf rest arguments
            else b.asOne :: boundArgsOf rest arguments

/-- CPython `BoundArguments.kwargs`: the keyword mapping reconstructed from
an arguments mapping.  `started` is the loop's `kwargs_started` flag,
initially `false`. -/
def boundKwargsOf : List Parameter → List (String × Binding) → Bool → List (String × Val)
  | [], _, _ => []
  | p :: rest, arguments, started =>
      if started || p.kind = .varKeyword || p.kind = .keywordOnly then
        match List.lookup p.name arguments with
        | none => boundKwargsOf rest arguments true
        | some b =>
            if p.kind = .varKeyword then b.asStarStar ++ boundKwargsOf rest arguments true
            else (p.name, b.asOne) :: boundKwargsOf rest arguments true
      else if (List.lookup p.name arguments).isNone then
        boundKwargsOf rest arguments true
      else
        boundKwargsOf rest arguments false

/-! ## The `combine` argument-redistribution wrapper -/

/-- A Python callable as `combine` sees it: its `__name__`, its
`inspect.signature`, and its behaviour as a pure function of the positional
and keyword arguments it is invoked with. -/
structure PyFunc where
  pyName : String
  sig : Signature
  body : List Val → List (String × Val) → Val

/-- Embedding of `_has_var_keyword`. -/
def _has_var_keyword (sig : Signature) : Bool :=
  sig.params.any fun p => p.kind == .varKeyword

/-- Embedding of `_drop_unknown_kwargs`: split incoming keywords into the ones this
signature accepts (all of them when it has `**kwargs`) and the leftover. -/
def _drop_unknown_kwargs (sig : Signature) (incoming : List (String × Val)) :
    List (String × Val) × List (String × Val) :=
  if incoming.isEmpty then ([], [])
  else if _has_var_keyword sig then (incoming, [])
  else
    let accepted := (sig.params.filter fun p =>
      p.kind == .positionalOrKeyword || p.kind == .keywordOnly).map Parameter.name
    (incoming.filter (fun e => accepted.contains e.1),
     incoming.filter (fun e => !accepted.contains e.1))

/-- One parameter of the loop of `_bind_arguments`, building the
`positional` list and `keywords` dict.  For a composite built by `combine`
the binding found under a positional-only, positional-or-keyword or
keyword-only name is always `one`, and under a variadic name always the
matching bundle, because `merge_signatures` raises on kind mismatches; in
the unreachable mismatch branches Python would pass the raw bundle object
through (or raise when extending a non-iterable), modelled as a TypeError
here. -/
def bindPieceStep (values : List (String × Binding))
    (st : List Val × List (String × Val)) (p : Parameter) :
    Except PyError (List Val × List (String × Val)) :=
  match p.kind with
  | .positionalOnly =>
      match List.lookup p.name values with
      | none => .ok st
      | some (.one v) => .ok (st.1 ++ [v], st.2)
      | some _ =>
          .error (.typeError ("unexpected variadic binding for '" ++ p.name ++ "'"))
  | .positionalOrKeyword =>
      match List.lookup p.name values, List.lookup p.name st.2 with
      | some (.one v), none => .ok (st.1 ++ [v], st.2)
      | some _, none =>
          .error (.typeError ("unexpected variadic binding for '" ++ p.name ++ "'"))
      | _, _ => .ok st
  | .varPositional =>
      match List.lookup p.name values with
      | none => .ok st
      | some (.star vs) => .ok (st.1 ++ vs, st.2)
      | some _ =>
          .error (.typeError ("unexpected scalar binding for '" ++ p.name ++ "'"))
  | .keywordOnly =>
      match List.lookup p.name values, List.lookup p.name st.2 with
      | some (.one v), none => .ok (st.1, st.2 ++ [(p.name, v)])
      | some _, none =>
          .error (.typeError ("unexpected variadic binding for '" ++ p.name ++ "'"))
      | _, _ => .ok st
  | .varKeyword =>
      match List.lookup p.name values with
      | none => .ok st
      | some (.starstar kvs) =>
          let updated := kvs.map fun e =>
            match List.lookup e.1 st.2 with
            | some v => (e.1, v)
            | none => e
          let fresh := st.2.filter fun e => (List.lookup e.1 kvs).isNone
          .ok (st.1, updated ++ fresh)
      | some _ =>
          .error (.typeError ("unexpected scalar binding for '" ++ p.name ++ "'"))

/-- Embedding of `_bind_arguments`: re-slice the shared post-default argument mapping
into one source signature's own shape and `bind_partial` it. -/
def _bind_arguments (sig : Signature) (values : List (String × Binding))
    (extraKwargs : List (String × Val)) : Except PyError (List (String × Binding)) := do
  let pk ← sig.params.foldlM (bindPieceStep values) ([], extraKwargs)
  pyBind sig pk.1 pk.2 true

/-- Modelled from the spec: the Call Snapshot (`vars`) recorded on a source
function object — the sliced positional tuple, the sliced keyword mapping,
the post-default bound-argument mapping restricted to names the function
declares, and the function's own return value.  The recording code lives in
the final `_core` module, which is absent from `src/` (its historical copy
there lacks it; `__init__.py` exports `CallVars` and the test suite asserts
the snapshots). -/
structure CallVars where
  args : List Val
  kwargs : List (String × Val)
  arguments : List (String × Binding)
  result : Val
  deriving DecidableEq, Repr

/-- Modelled from the spec: the post-default bound-argument mapping
restricted to the names a function declares. -/
def restrictArguments (sig : Signature) (arguments : List (String × Binding)) :
    List (String × Binding) :=
  arguments.filter fun e => (sig.params.map Parameter.name).contains e.1

/-- The outcome of one stage of the wrapper loop: the stage function's
return value, its recorded Call Snapshot, and the leftover keywords carried
to the next stage. -/
structure FuncRun where
  result : Val
  vars : CallVars
  leftover : List (String × Val)

/-- One stage of the wrapper: claim keywords, re-slice the shared bound
arguments, invoke the function, and record its Call Snapshot. -/
def runOneFunc (f : PyFunc) (arguments : List (String × Binding))
    (remaining : List (String × Val)) : Except PyError FuncRun :=
  let dk := _drop_unknown_kwargs f.sig remaining
  match _bind_arguments f.sig arguments dk.1 with
  | .error e => .error e
  | .ok bound =>
      let as := boundArgsOf f.sig.params bound
      let ks := boundKwargsOf f.sig.params bound false
      let r := f.body as ks
      .ok ⟨r, ⟨as, ks, restrictArguments f.sig arguments, r⟩, dk.2⟩

/-- The wrapper's dispatch loop over the source functions in order.  The
list of snapshots doubles as the invocation trace: it holds exactly the
functions invoked so far, also when a later stage fails. -/
def runStagesAux (funcs : List PyFunc) (arguments : List (String × Binding))
    (remaining : List (String × Val)) :
    List CallVars × Except PyError (List (String × Val)) :=
  match funcs with
  | [] => ([], .ok remaining)
  | f :: rest =>
      match runOneFunc f arguments remaining with
      | .error e => ([], .error e)
      | .ok fr =>
          let t := runStagesAux rest arguments fr.leftover
          (fr.vars :: t.1, t.2)

/-- The composite callable returned by `combine`: the source functions, the
`name`/`doc` overrides, and the published `__signature__`. -/
structure Composite where
  funcs : List PyFunc
  nameOverride : Option String
  docOverride : Option String
  signatureAttr : Signature

/-- Embedding of `combine(*functions, name=, doc=)`. -/
def combine (functions : List PyFunc) (nm doc : Option String) :
    Except PyError Composite := do
  if functions.isEmpty then
    .error (.valueError "combine requires at least one callable")
  else do
    let merged ← merge_signatures (functions.map PyFunc.sig) .preferFirst
      .raiseResolver true true
    .ok ⟨functions, nm, doc, merged⟩

/-- Embedding of `name or primary.__name__`: the name used in the unexpected-keyword
message (an empty-string override is falsy in Python). -/
def Composite.effectiveName (c : Composite) : String :=
  match c.nameOverride with
  | some s => if s = "" then ((c.funcs.headD ⟨"", ⟨[], none⟩, fun _ _ => .vnone⟩).pyName) else s
  | none => (c.funcs.headD ⟨"", ⟨[], none⟩, fun _ _ => .vnone⟩).pyName

/-- The wrapper's behaviour on one call: bind against the merged signature,
apply defaults, dispatch through every source function in order, then fail
on any keyword still unclaimed.  Returns the snapshots of the functions
actually invoked (the observable side effects) alongside the result or the
raised error. -/
def runComposite (c : Composite) (args : List Val) (kwargs : List (String × Val)) :
    List CallVars × Except PyError Val :=
  match pyBind c.signatureAttr args kwargs false with
  | .error e => ([], .error e)
  | .ok boundAll =>
      let arguments := applyDefaults c.signatureAttr boundAll
      let t := runStagesAux c.funcs arguments kwargs
      match t.2 with
      | .error e => (t.1, .error e)
      | .ok leftover =>
          if leftover.isEmpty then
            (t.1, .ok ((t.1.headD ⟨[], [], [], .vnone⟩).result))
          else
            (t.1, .error (.typeError (c.effectiveName ++
              "() got an unexpected keyword argument '" ++
              (leftover.headD ("", .vnone)).1 ++ "'")))

/-- The leftover of folding `_drop_unknown_kwargs` through every source
signature in order: the keywords claimed by no function. -/
def unclaimedKwargs (sigs : List Signature) (kwargs : List (String × Val)) :
    List (String × Val) :=
  sigs.foldl (fun rem s => (_drop_unknown_kwargs s rem).2) kwargs

/-! Sanity checks of the wrapper against `test_combine.py`. -/

/-- Embedding of `primary(x: int, y: int = 2, /, *, flag: bool = False) -> int` returning
`x + y`, from `test_combine_exposes_call_vars`. -/
def varsPrimary : PyFunc :=
  ⟨"primary",
   ⟨[⟨"x", .positionalOnly, none, some (.vstr "int")⟩,
     ⟨"y", .positionalOnly, some (.vint 2), some (.vstr "int")⟩,
     ⟨"flag", .keywordOnly, some (.vbool false), some (.vstr "bool")⟩],
    some (.vstr "int")⟩,
   fun as _ =>
     match as with
     | [.vint a, .vint b] => .vint (a + b)
     | _ => .vnone⟩

/-- Embedding of `audit(*, flag: bool, tracker: list[str]) -> None`. -/
def varsAudit : PyFunc :=
  ⟨"audit",
   ⟨[⟨"flag", .keywordOnly, none, some (.vstr "bool")⟩,
     ⟨"tracker", .keywordOnly, none, some (.vstr "list[str]")⟩],
    some (.vstr "None")⟩,
   fun _ _ => .vnone⟩

/-- The composite `combine(primary, audit)` builds. -/
def varsComposite : Composite :=
  ⟨[varsPrimary, varsAudit], none, none,
   ⟨[⟨"x", .positionalOnly, none, some (.vstr "int")⟩,
     ⟨"y", .positionalOnly, some (.vint 2), some (.vstr "int")⟩,
     ⟨"flag", .keywordOnly, some (.vbool false), some (.vstr "bool")⟩,
     ⟨"tracker", .keywordOnly, none, some (.vstr "list[str]")⟩],
    some (.vstr "None")⟩⟩

/-- Embedding of `with_kwargs(x: int, /, **kwargs: int) -> int` returning `x`. -/
def withKwargsFunc : PyFunc :=
  ⟨"with_kwargs",
   ⟨[⟨"x", .positionalOnly, none, some (.vstr "int")⟩,
     ⟨"kwargs", .varKeyword, none, some (.vstr "int")⟩], some (.vstr "int")⟩,
   fun as _ => as.headD .vnone⟩

/-- Embedding of `grab(**kwargs: int) -> None`. -/
def grabFunc : PyFunc :=
  ⟨"grab",
   ⟨[⟨"kwargs", .varKeyword, none, some (.vstr "int")⟩], some (.vstr "None")⟩,
   fun _ _ => .vnone⟩

/-- The composite of `test_combine_var_keyword_consumption`. -/
def grabComposite : Composite :=
  ⟨[withKwargsFunc, grabFunc], none, none,
   ⟨[⟨"x", .positionalOnly, none, some (.vstr "int")⟩,
     ⟨"kwargs", .varKeyword, none, some (.vstr "int")⟩], some (.vstr "None")⟩⟩

/-! ## The package surface (`__init__.py`) -/

/-- The rough kind of a Python module-level object. -/
inductive PyObjKind where
  | pyFunction
  | pyClass
  | warningCategory
  | exceptionClass
  deriving DecidableEq, Repr

/-- Modelled from the spec: the module-level definitions of the final
`_core` module.  The copy of `_core.py` under `src/` is a historical one
without `fuse`, `CallVars` and `SigniaWarning`; `__init__.py` imports them
and the test suite exercises them, so they are modelled here from the
spec's surface list (`fuse(*functions, on_conflict=, publish=) ->
decorator`, warning category `SigniaWarning`). -/
def coreModuleDefs : List (String × PyObjKind) :=
  [("CallVars", .pyClass),
   ("SigniaWarning", .warningCategory),
   ("SignatureConflictError", .exceptionClass),
   ("combine", .pyFunction),
   ("fuse", .pyFunction),
   ("merge_signatures", .pyFunction),
   ("mirror_signature", .pyFunction),
   ("same_signature", .pyFunction)]

/-- The names `__init__.py` imports from `._core`. -/
def signiaInitImports : List String :=
  ["CallVars", "SigniaWarning", "SignatureConflictError", "combine", "fuse",
   "merge_signatures", "mirror_signature", "same_signature"]

/-- Embedding of `__all__` of the `signia` package, from `__init__.py`. -/
def signiaAll : List String :=
  ["CallVars", "SigniaWarning", "SignatureConflictError", "combine", "fuse",
   "merge_signatures", "mirror_signature", "same_signature", "__version__"]

/-- Truth of this flag models that `import signia` succeeds: every name `__init__.py` imports
is defined by the core module. -/
def importSignia : Bool :=
  signiaInitImports.all fun n => (List.lookup n coreModuleDefs).isSome

/-- Embedding of `primary(x: int, /, y: str, *, flag: bool = False)` from the spec's
round-trip / unclaimed-keyword examples. -/
def specPrimary : PyFunc :=
  ⟨"primary",
   ⟨[⟨"x", .positionalOnly, none, some (.vstr "int")⟩,
     ⟨"y", .positionalOrKeyword, none, some (.vstr "str")⟩,
     ⟨"flag", .keywordOnly, some (.vbool false), some (.vstr "bool")⟩], none⟩,
   fun as _ => as.headD .vnone⟩

/-- Embedding of `secondary(*, flag, audit)`. -/
def specSecondary : PyFunc :=
  ⟨"secondary",
   ⟨[⟨"flag", .keywordOnly, none, none⟩,
     ⟨"audit", .keywordOnly, none, none⟩], none⟩,
   fun _ _ => .vnone⟩

/-- The composite `combine(primary, secondary)` builds for them. -/
def specComposite : Composite :=
  ⟨[specPrimary, specSecondary], none, none,
   ⟨[⟨"x", .positionalOnly, none, some (.vstr "int")⟩,
     ⟨"y", .positionalOrKeyword, none, some (.vstr "str")⟩,
     ⟨"flag", .keywordOnly, some (.vbool false), some (.vstr "bool")⟩,
     ⟨"audit", .keywordOnly, none, none⟩], none⟩⟩

/-- Embedding of `solo(z)`, returning `z`. -/
def soloPrimary : PyFunc :=
  ⟨"solo", ⟨[⟨"z", .positionalOrKeyword, none, none⟩], none⟩,
   fun as _ => as.headD .vnone⟩

/-- Embedding of `t(x=1, y=2)`. -/
def dualDefaults : PyFunc :=
  ⟨"t",
   ⟨[⟨"x", .positionalOrKeyword, some (.vint 1), none⟩,
     ⟨"y", .positionalOrKeyword, some (.vint 2), none⟩], none⟩,
   fun _ _ => .vnone⟩

/-- The composite `combine(solo, t)` builds. -/
def dualComposite : Composite :=
  ⟨[soloPrimary, dualDefaults], none, none,
   ⟨[⟨"z", .positionalOrKeyword, none, none⟩,
     ⟨"x", .positionalOrKeyword, some (.vint 1), none⟩,
     ⟨"y", .positionalOrKeyword, some (.vint 2), none⟩], none⟩⟩

/-- Embedding of `x: int` with no default (the existing side of the C9 counterexample). -/
def exParamX : Parameter := ⟨"x", .positionalOrKeyword, none, some (.vstr "int")⟩

/-- Embedding of `x: str = 5` (the incoming side of the C9 counterexample). -/
def incParamX : Parameter := ⟨"x", .positionalOrKeyword, some (.vint 5), some (.vstr "str")⟩

/-! ## Return annotation handling (C6) -/

/-- A signature with its return annotation stripped. -/
def stripRet (s : Signature) : Signature := ⟨s.params, none⟩

/-- The return annotation of the right-most source that declares one;
`none` when no source does. -/
def lastDeclaredRet : List Signature → Option Val
  | [] => none
  | s :: rest =>
      match lastDeclaredRet rest with
      | some a => some a
      | none => s.retAnnot

/-- The parameter-processing part of `merge_signatures`' loop, with the
return-annotation bookkeeping dropped. -/
def mergeParamsFold (pol : Policy) (res : Resolver) (cd ca : Bool)
    (sigs : List Signature) (st : MergeState) : Except PyError MergeState :=
  sigs.foldlM (fun st s => s.params.foldlM (mergeStep pol res cd ca) st) st

/-! ## Kind ordering and first-seen order (C3) -/

/-- Accumulate a name in first-seen order (keep-first deduplication). -/
def seenFold (acc : List String) (n : String) : List String :=
  if n ∈ acc then acc else acc ++ [n]

/-- The parameter names of the sources in the order they are first seen
while walking the sources left to right. -/
def firstSeenNames (sigs : List Signature) : List String :=
  ((sigs.map Signature.params).flatten.map Parameter.name).foldl seenFold []

/-- Every parameter stored in a bucket has the bucket's kind. -/
def BucketsWF (b : Buckets) : Prop :=
  ∀ (k : ParamKind) (p : Parameter), p ∈ b.get k → p.kind = k

/-- The loop invariant for `merge_signatures` under the default raising
resolver and prefer-first policy: the two dictionaries mirror each other,
a name is recorded exactly when it has been seen, and each bucket's name
sequence is a subsequence of the first-seen order. -/
structure StInv (st : MergeState) (seen : List String) : Prop where
  lookup_name : ∀ n p, List.lookup n st.nameToParameter = some p → p.name = n
  lookup_kind : ∀ n p, List.lookup n st.nameToParameter = some p →
    List.lookup n st.nameToKind = some p.kind
  kind_none : ∀ n, List.lookup n st.nameToParameter = none →
    List.lookup n st.nameToKind = none
  mem_seen : ∀ n, (List.lookup n st.nameToParameter).isSome = true ↔ n ∈ seen
  bucket_sub : ∀ k, ((st.buckets.get k).map Parameter.name).Sublist seen

/-- C3 counterexample sources: `f(a, *, b)` and `g(*, a: int)`. -/
def cexSigA : Signature :=
  ⟨[⟨"a", .positionalOrKeyword, none, none⟩,
    ⟨"b", .keywordOnly, none, none⟩], none⟩

def cexSigB : Signature :=
  ⟨[⟨"a", .keywordOnly, none, some (.vstr "int")⟩], none⟩


/-! ## Verification: sanity checks, helper lemmas and claim theorems -/

example :
    (merge_signatures [leftSig, rightSig] .preferFirst .raiseResolver true true).map
      (fun s => s.params.map fun p => (p.name, p.kind)) =
    .ok [("a", .positionalOnly), ("b", .positionalOrKeyword),
         ("args", .varPositional), ("c", .keywordOnly), ("d", .keywordOnly),
         ("kwargs", .varKeyword)] := by rfl

example :
    merge_signatures [leftSig, rightConflictingSig] .preferFirst .raiseResolver true true =
    .error (.signatureConflictError "Parameter 'c' conflict: default 1 vs 2") := by rfl

example :
    (merge_signatures [leftSig, rightConflictingSig] .preferLast .raiseResolver false true).map
      (fun s => s.params.map Parameter.default) =
    .ok [none, none, none, some (.vint 2), none, none] := by rfl

example : combine [varsPrimary, varsAudit] none none = .ok varsComposite := by rfl

example :
    runComposite varsComposite [.vint 1]
      [("flag", .vbool true), ("tracker", .vstr "T")] =
    ([⟨[.vint 1, .vint 2], [("flag", .vbool true)],
       [("x", .one (.vint 1)), ("y", .one (.vint 2)), ("flag", .one (.vbool true))],
       .vint 3⟩,
      ⟨[], [("flag", .vbool true), ("tracker", .vstr "T")],
       [("flag", .one (.vbool true)), ("tracker", .one (.vstr "T"))],
       .vnone⟩],
     .ok (.vint 3)) := by rfl

example : combine [withKwargsFunc, grabFunc] none none = .ok grabComposite := by rfl

example :
    (runComposite grabComposite [.vint 10] [("extra", .vint 5)]).2 =
      .ok (.vint 10) := by rfl

example :
    (runComposite grabComposite [.vint 10] [("extra", .vint 5)]).1.map CallVars.kwargs =
      [[("extra", .vint 5)], [("extra", .vint 5)]] := by rfl

/-! ## Claim theorems -/

/-- C1: importing the package succeeds, and both `fuse` (a callable
returning a decorator) and the warning category `SigniaWarning` are exposed
names of the package. -/
theorem fuse_and_warning_exported :
    importSignia = true ∧
    List.lookup "fuse" coreModuleDefs = some .pyFunction ∧
    List.lookup "SigniaWarning" coreModuleDefs = some .warningCategory ∧
    "fuse" ∈ signiaAll ∧ "SigniaWarning" ∈ signiaAll := by
  decide

/-- C7: at the spec's own scenario (an unknown keyword `bogus` passed to
`combine(primary, secondary)`, all required arguments supplied), the call
fails while binding against the merged signature: the raised error is
CPython's native `got an unexpected keyword argument 'bogus'`, which names
the offending key but not the composite's effective name, and no source
function has been invoked.  The wrapper's own unclaimed-keyword branch
(which would prepend the effective name) is never reached, because binding
already rejects keywords no merged parameter accepts and any function with
`**kwargs` claims everything that is left. -/
theorem combine_unexpected_keyword_at_bind :
    combine [specPrimary, specSecondary] none none = .ok specComposite ∧
    runComposite specComposite [.vint 1, .vstr "y"]
        [("audit", .vstr "A"), ("bogus", .vint 1)] =
      ([], .error (.typeError "got an unexpected keyword argument 'bogus'")) := by
  exact ⟨by rfl, by rfl⟩

/-- C8 counterexample: a failing invocation of a `combine` composite after
a source function has already been invoked.  `combine(solo, t)(7, x=5)`
binds fine against the merged signature, invokes `solo` (one snapshot is
recorded), and only then fails re-slicing the arguments for `t` (the
re-positionalised `y` collides with the keyword `x`).  So a failing
invocation is not all-or-nothing: `solo` was invoked, refuting the claim at
this explicit input. -/
theorem combine_not_all_or_nothing :
    combine [soloPrimary, dualDefaults] none none = .ok dualComposite ∧
    (runComposite dualComposite [.vint 7] [("x", .vint 5)]).2 =
      .error (.typeError "multiple values for argument 'x'") ∧
    (runComposite dualComposite [.vint 7] [("x", .vint 5)]).1 ≠ [] := by
  refine ⟨by rfl, by rfl, ?_⟩
  decide

/-- C8 (amended): when the composite fails while binding the caller's
arguments against the merged signature, no source function has been invoked
(no snapshot recorded) and the binding error is surfaced unchanged, with no
partial result. -/
theorem combine_bind_failure_invokes_nothing (c : Composite) (args : List Val)
    (kwargs : List (String × Val)) (e : PyError)
    (h : pyBind c.signatureAttr args kwargs false = .error e) :
    runComposite c args kwargs = ([], .error e) := by
  unfold runComposite
  rw [h]

theorem combine_bind_failure_invokes_nothing_witness :
    pyBind specComposite.signatureAttr [] [] false =
      .error (.typeError "missing a required argument: 'x'") ∧
    runComposite specComposite [] [] =
      ([], .error (.typeError "missing a required argument: 'x'")) :=
  ⟨by rfl,
   combine_bind_failure_invokes_nothing specComposite [] [] _ (by rfl)⟩

/-- C9 counterexample: a caller-supplied resolver that returns `existing`
unchanged.  The annotations conflict (`int` vs `str`), the defaults do not
(only the incoming side has one), and the resolver plainly prefers the
existing side — yet the merged parameter's default stays empty: for a
caller-supplied resolver the code tags the resolution source `"custom"`,
picks no counterpart, and never backfills, contradicting the claim that the
non-conflicting default `5` would be borrowed from the incoming side. -/
theorem custom_resolver_no_backfill_counterexample :
    (merge_signatures [⟨[exParamX], none⟩, ⟨[incParamX], none⟩] .preferFirst
        (.custom fun _ existing _ _ => existing) true true).map
      (fun s => s.params.map Parameter.default) = .ok [none] ∧
    (merge_signatures [⟨[exParamX], none⟩, ⟨[incParamX], none⟩] .preferFirst
        (.custom fun _ existing _ _ => existing) true true).map
      (fun s => s.params.map Parameter.default) ≠ .ok [some (.vint 5)] := by
  refine ⟨by rfl, ?_⟩
  intro h
  rw [show (merge_signatures [⟨[exParamX], none⟩, ⟨[incParamX], none⟩] .preferFirst
        (.custom fun _ existing _ _ => existing) true true).map
      (fun s => s.params.map Parameter.default) = .ok [none] from by rfl] at h
  cases h

/-- C9 (amended): a caller-supplied resolver is invoked with
`(name, existing, incoming, conflicts)`; its result must keep the parameter
name, otherwise the merge fails with a `SignatureConflictError`; and the
returned parameter is used exactly as returned — no default or annotation
backfill is applied for caller-supplied resolvers. -/
theorem custom_resolver_result_used_as_is (name : String)
    (existing incoming : Parameter) (policy : Policy)
    (f : String → Parameter → Parameter → List ConflictDetail → Parameter)
    (compareDefaults compareAnnots : Bool)
    (hconf : _detect_parameter_conflicts (_apply_policy existing incoming policy).1
      (_apply_policy existing incoming policy).2 compareDefaults compareAnnots ≠ []) :
    ((f name existing incoming
        (_detect_parameter_conflicts (_apply_policy existing incoming policy).1
          (_apply_policy existing incoming policy).2 compareDefaults compareAnnots)).name = name →
      _merge_parameter_metadata name existing incoming policy (.custom f)
          compareDefaults compareAnnots =
        .ok (f name existing incoming
          (_detect_parameter_conflicts (_apply_policy existing incoming policy).1
            (_apply_policy existing incoming policy).2 compareDefaults compareAnnots))) ∧
    ((f name existing incoming
        (_detect_parameter_conflicts (_apply_policy existing incoming policy).1
          (_apply_policy existing incoming policy).2 compareDefaults compareAnnots)).name ≠ name →
      _merge_parameter_metadata name existing incoming policy (.custom f)
          compareDefaults compareAnnots =
        .error (.signatureConflictError ("Conflict resolver must keep parameter name '"
          ++ name ++ "', got '" ++
          (f name existing incoming
            (_detect_parameter_conflicts (_apply_policy existing incoming policy).1
              (_apply_policy existing incoming policy).2 compareDefaults compareAnnots)).name
          ++ "'."))) := by
  constructor
  · intro hn
    unfold _merge_parameter_metadata
    rw [if_neg (by simpa [List.isEmpty_iff] using hconf)]
    simp [_resolve_parameter_conflict, hn]
  · intro hn
    unfold _merge_parameter_metadata
    rw [if_neg (by simpa [List.isEmpty_iff] using hconf)]
    simp [_resolve_parameter_conflict, hn]

theorem custom_resolver_result_used_as_is_witness :
    (_detect_parameter_conflicts
        (_apply_policy exParamX incParamX .preferFirst).1
        (_apply_policy exParamX incParamX .preferFirst).2 true true ≠ []) ∧
    _merge_parameter_metadata "x" exParamX incParamX .preferFirst
        (.custom fun _ existing _ _ => existing) true true = .ok exParamX :=
  ⟨by decide,
   (custom_resolver_result_used_as_is "x" exParamX incParamX .preferFirst
      (fun _ existing _ _ => existing) true true (by decide)).1 (by rfl)⟩

/-! Helper lemmas: merging two single-parameter signatures with the same
parameter name reduces to `_merge_parameter_metadata`. -/

theorem except_bind_ok {ε α β : Type} (a : α) (f : α → Except ε β) :
    (Except.ok a >>= f) = f a := rfl

theorem except_bind_err {ε α β : Type} (e : ε) (f : α → Except ε β) :
    ((Except.error e : Except ε α) >>= f) = .error e := rfl

theorem except_bind_ok_eta {ε α β : Type} (a : α) (f : α → Except ε β) :
    Except.bind (Except.ok a) f = f a := rfl

theorem except_bind_err_eta {ε α β : Type} (e : ε) (f : α → Except ε β) :
    Except.bind (Except.error e : Except ε α) f = .error e := rfl

theorem iter_append_initial (k : ParamKind) (x : Parameter) :
    _iter_bucketed_parameters (bucketAppend _initial_parameter_buckets k x) = [x] := by
  cases k <;> rfl

theorem replace_append_initial (k : ParamKind) (x m : Parameter) (nm : String)
    (h : x.name = nm) :
    bucketReplace (bucketAppend _initial_parameter_buckets k x) k nm m =
      bucketAppend _initial_parameter_buckets k m := by
  cases k <;>
    simp [bucketReplace, bucketAppend, _initial_parameter_buckets, Buckets.set,
      Buckets.get, h]

theorem delete_append_initial (k : ParamKind) (x : Parameter) (nm : String)
    (h : x.name = nm) :
    bucketDelete (bucketAppend _initial_parameter_buckets k x) k nm =
      _initial_parameter_buckets := by
  cases k <;>
    simp [bucketDelete, bucketAppend, _initial_parameter_buckets, Buckets.set,
      Buckets.get, h]

theorem merge_two_singleton (p q : Parameter) (pol : Policy) (res : Resolver)
    (cd ca : Bool) (h : q.name = p.name) :
    merge_signatures [⟨[p], none⟩, ⟨[q], none⟩] pol res cd ca =
      (_merge_parameter_metadata q.name p q pol res cd ca).map fun m =>
        ⟨[m], none⟩ := by
  have hlook : List.lookup q.name [(p.name, p)] = some p := by
    simp [List.lookup, h]
  have hlook2 : List.lookup q.name [(p.name, p.kind)] = some p.kind := by
    simp [List.lookup, h]
  cases hm : _merge_parameter_metadata q.name p q pol res cd ca with
  | error e =>
      simp [merge_signatures, mergeSig, mergeStep, List.foldlM, hlook, hlook2, hm,
        Except.map, except_bind_ok, except_bind_err]
  | ok m =>
      simp [merge_signatures, mergeSig, mergeStep, List.foldlM, except_bind_ok,
        except_bind_err, hlook, hlook2, hm, Except.map]
      by_cases hk : p.kind = m.kind
      · simp [hk, except_bind_ok, except_bind_ok_eta, replace_append_initial,
          iter_append_initial, h]
      · simp [hk, except_bind_ok, except_bind_ok_eta, delete_append_initial,
          iter_append_initial, h]

/-- When no conflict is detected, `_merge_parameter_metadata` returns the
policy-primary parameter with its empty default/annotation backfilled from
the secondary, never overwriting a present value. -/
theorem metadata_no_conflict (nm : String) (existing incoming : Parameter)
    (pol : Policy) (res : Resolver) (cd ca : Bool)
    (h : _detect_parameter_conflicts (_apply_policy existing incoming pol).1
      (_apply_policy existing incoming pol).2 cd ca = []) :
    _merge_parameter_metadata nm existing incoming pol res cd ca =
      .ok ⟨(_apply_policy existing incoming pol).1.name,
           (_apply_policy existing incoming pol).1.kind,
           (if (_apply_policy existing incoming pol).1.default.isSome
            then (_apply_policy existing incoming pol).1.default
            else (_apply_policy existing incoming pol).2.default),
           (if (_apply_policy existing incoming pol).1.annot.isSome
            then (_apply_policy existing incoming pol).1.annot
            else (_apply_policy existing incoming pol).2.annot)⟩ := by
  unfold _merge_parameter_metadata
  rw [if_pos (by simp [h])]
  cases hd : (_apply_policy existing incoming pol).1.default <;>
    cases ha : (_apply_policy existing incoming pol).1.annot <;>
      simp [hd, ha]

/-- C5: re-encountering a parameter name with no conflict detected merges to
the policy-primary parameter with empty default/annotation backfilled from
the secondary side; a present default or annotation is never overwritten. -/
theorem merge_backfill_not_override (p q : Parameter) (pol : Policy)
    (res : Resolver) (cd ca : Bool) (hname : q.name = p.name)
    (hnc : _detect_parameter_conflicts (_apply_policy p q pol).1
      (_apply_policy p q pol).2 cd ca = []) :
    merge_signatures [⟨[p], none⟩, ⟨[q], none⟩] pol res cd ca =
      .ok ⟨[⟨(_apply_policy p q pol).1.name, (_apply_policy p q pol).1.kind,
            (if (_apply_policy p q pol).1.default.isSome
             then (_apply_policy p q pol).1.default
             else (_apply_policy p q pol).2.default),
            (if (_apply_policy p q pol).1.annot.isSome
             then (_apply_policy p q pol).1.annot
             else (_apply_policy p q pol).2.annot)⟩], none⟩ := by
  rw [merge_two_singleton p q pol res cd ca hname,
    metadata_no_conflict q.name p q pol res cd ca hnc]
  rfl

/-- C5 witness: merging `f(x: int = 1)` with `g(x)` (no default, no
annotation) keeps default `1` and annotation `int`. -/
theorem merge_backfill_not_override_witness :
    (⟨"x", .positionalOrKeyword, none, none⟩ : Parameter).name =
      (⟨"x", .positionalOrKeyword, some (.vint 1), some (.vstr "int")⟩ : Parameter).name ∧
    _detect_parameter_conflicts
      (_apply_policy ⟨"x", .positionalOrKeyword, some (.vint 1), some (.vstr "int")⟩
        ⟨"x", .positionalOrKeyword, none, none⟩ .preferFirst).1
      (_apply_policy ⟨"x", .positionalOrKeyword, some (.vint 1), some (.vstr "int")⟩
        ⟨"x", .positionalOrKeyword, none, none⟩ .preferFirst).2 true true = [] ∧
    merge_signatures
      [⟨[⟨"x", .positionalOrKeyword, some (.vint 1), some (.vstr "int")⟩], none⟩,
       ⟨[⟨"x", .positionalOrKeyword, none, none⟩], none⟩]
      .preferFirst .raiseResolver true true =
      .ok ⟨[⟨"x", .positionalOrKeyword, some (.vint 1), some (.vstr "int")⟩], none⟩ :=
  ⟨rfl, by decide,
   merge_backfill_not_override
     ⟨"x", .positionalOrKeyword, some (.vint 1), some (.vstr "int")⟩
     ⟨"x", .positionalOrKeyword, none, none⟩ .preferFirst .raiseResolver true true
     rfl (by decide)⟩

/-- Two parameters of equal kind with non-conflicting defaults produce no
conflicts when annotations are not compared. -/
theorem detect_no_annot_compare (x y : Parameter) (hk : x.kind = y.kind)
    (hd : x.default = none ∨ y.default = none ∨ x.default = y.default) :
    _detect_parameter_conflicts x y true false = [] := by
  unfold _detect_parameter_conflicts
  rcases hd with hd | hd | hd
  · rw [hd]
    cases y.default <;> cases x.annot <;> cases y.annot <;> simp [hk]
  · rw [hd]
    cases x.default <;> cases x.annot <;> cases y.annot <;> simp [hk]
  · rw [hd]
    cases y.default <;> cases x.annot <;> cases y.annot <;> simp [hk]

/-- C4: two sources annotating a same-named parameter differently (no other
mismatch): with `compare_annotations=True` and the default `on_conflict`
the merge raises a `SignatureConflictError` whose message spells the
parameter's name; with `compare_annotations=False` it succeeds and keeps
the policy-primary annotation (existing under prefer-first, incoming under
prefer-last). -/
theorem merge_annot_conflict_symmetry (p q : Parameter) (a b : Val)
    (hname : q.name = p.name) (hkind : q.kind = p.kind)
    (hpa : p.annot = some a) (hqb : q.annot = some b) (hab : a ≠ b)
    (hdef : p.default = none ∨ q.default = none ∨ p.default = q.default) :
    merge_signatures [⟨[p], none⟩, ⟨[q], none⟩] .preferFirst .raiseResolver true true =
      .error (.signatureConflictError
        ("Parameter '" ++ p.name ++ "' conflict: " ++
          ("annotation " ++ pyRepr a ++ " vs " ++ pyRepr b))) ∧
    ∀ pol : Policy,
      (merge_signatures [⟨[p], none⟩, ⟨[q], none⟩] pol .raiseResolver true false).map
          (fun s => s.params.map Parameter.annot) =
        .ok [some (match pol with | .preferFirst => a | .preferLast => b)] := by
  have hdet : _detect_parameter_conflicts p q true true = [.annotConflict a b] := by
    unfold _detect_parameter_conflicts
    rw [hpa, hqb]
    rcases hdef with hd | hd | hd
    · rw [hd]
      cases q.default <;> simp [hkind, hab]
    · rw [hd]
      cases p.default <;> simp [hkind, hab]
    · rw [hd]
      cases q.default <;> simp [hkind, hab]
  constructor
  · rw [merge_two_singleton p q .preferFirst .raiseResolver true true hname]
    have hm : _merge_parameter_metadata q.name p q .preferFirst .raiseResolver true true =
        .error (.signatureConflictError (conflictMessage q.name [.annotConflict a b])) := by
      unfold _merge_parameter_metadata
      simp [_apply_policy, hdet, _resolve_parameter_conflict]
    rw [hm]
    simp only [Except.map, conflictMessage, conflictDetailText, hname]
    rfl
  · intro pol
    cases pol with
    | preferFirst =>
        have hd1 : _detect_parameter_conflicts
            (_apply_policy p q .preferFirst).1 (_apply_policy p q .preferFirst).2
            true false = [] :=
          detect_no_annot_compare p q hkind.symm hdef
        rw [merge_two_singleton p q .preferFirst .raiseResolver true false hname,
          metadata_no_conflict q.name p q .preferFirst .raiseResolver true false hd1]
        simp [Except.map, _apply_policy, hpa]
    | preferLast =>
        have hd2 : _detect_parameter_conflicts
            (_apply_policy p q .preferLast).1 (_apply_policy p q .preferLast).2
            true false = [] := by
          refine detect_no_annot_compare q p hkind ?_
          rcases hdef with hd | hd | hd
          · exact Or.inr (Or.inl hd)
          · exact Or.inl hd
          · exact Or.inr (Or.inr hd.symm)
        rw [merge_two_singleton p q .preferLast .raiseResolver true false hname,
          metadata_no_conflict q.name p q .preferLast .raiseResolver true false hd2]
        simp [Except.map, _apply_policy, hqb]

/-- C4 witness: `f(x: int)` against `g(x: str)`. -/
theorem merge_annot_conflict_symmetry_witness :
    (Val.vstr "int" ≠ Val.vstr "str") ∧
    merge_signatures
      [⟨[⟨"x", .positionalOrKeyword, none, some (.vstr "int")⟩], none⟩,
       ⟨[⟨"x", .positionalOrKeyword, none, some (.vstr "str")⟩], none⟩]
      .preferFirst .raiseResolver true true =
      .error (.signatureConflictError
        "Parameter 'x' conflict: annotation 'int' vs 'str'") :=
  ⟨by decide,
   (merge_annot_conflict_symmetry
      ⟨"x", .positionalOrKeyword, none, some (.vstr "int")⟩
      ⟨"x", .positionalOrKeyword, none, some (.vstr "str")⟩
      (.vstr "int") (.vstr "str") rfl rfl rfl rfl (by decide) (Or.inl rfl)).1⟩

/-- C10: the signature a `combine` composite publishes (`__signature__`) is
exactly `merge_signatures` over the source functions with default options;
when the merge raises, `combine` raises the same error. -/
theorem combine_publishes_merged_signature (fs : List PyFunc)
    (nm doc : Option String) (h : fs ≠ []) :
    (combine fs nm doc).map Composite.signatureAttr =
      merge_signatures (fs.map PyFunc.sig) .preferFirst .raiseResolver true true := by
  unfold combine
  rw [if_neg (by simpa [List.isEmpty_iff] using h)]
  cases hm : merge_signatures (fs.map PyFunc.sig) .preferFirst .raiseResolver true true with
  | error e => rfl
  | ok s => rfl

theorem combine_publishes_merged_signature_witness :
    ([specPrimary, specSecondary] : List PyFunc) ≠ [] ∧
    (combine [specPrimary, specSecondary] none none).map Composite.signatureAttr =
      merge_signatures [specPrimary.sig, specSecondary.sig] .preferFirst
        .raiseResolver true true :=
  ⟨by simp,
   combine_publishes_merged_signature [specPrimary, specSecondary] none none (by simp)⟩

/-- Embedding of `merge_signatures`' fold factors into the parameter fold and the
last-non-empty return annotation. -/
theorem merge_factor (pol : Policy) (res : Resolver) (cd ca : Bool) :
    ∀ (sigs : List Signature) (st : MergeState) (r : Option Val),
      sigs.foldlM (mergeSig pol res cd ca) (st, r) =
        (mergeParamsFold pol res cd ca sigs st).map fun st' =>
          (st', match lastDeclaredRet sigs with
                | some a => some a
                | none => r) := by
  intro sigs
  induction sigs with
  | nil => intro st r; rfl
  | cons s rest ih =>
      intro st r
      rw [List.foldlM_cons]
      cases hp : s.params.foldlM (mergeStep pol res cd ca) st with
      | error e =>
          have hms : mergeSig pol res cd ca (st, r) s = .error e := by
            simp [mergeSig, hp, except_bind_err, except_bind_err_eta]
          rw [hms]
          simp [mergeParamsFold, List.foldlM_cons, hp, except_bind_err,
            except_bind_err_eta, Except.map]
      | ok st1 =>
          have hms : mergeSig pol res cd ca (st, r) s =
              .ok (st1, match s.retAnnot with
                        | some a => some a
                        | none => r) := by
            simp [mergeSig, hp, except_bind_ok, except_bind_ok_eta]
          rw [hms, except_bind_ok, ih st1]
          have hfold : mergeParamsFold pol res cd ca (s :: rest) st =
              mergeParamsFold pol res cd ca rest st1 := by
            simp [mergeParamsFold, List.foldlM_cons, hp, except_bind_ok,
              except_bind_ok_eta]
          rw [hfold]
          cases hl : lastDeclaredRet rest <;> cases hr : s.retAnnot <;>
            simp [lastDeclaredRet, hl, hr]

theorem params_fold_strip (pol : Policy) (res : Resolver) (cd ca : Bool) :
    ∀ (sigs : List Signature) (st : MergeState),
      mergeParamsFold pol res cd ca (sigs.map stripRet) st =
        mergeParamsFold pol res cd ca sigs st := by
  intro sigs
  induction sigs with
  | nil => intro st; rfl
  | cons s rest ih =>
      intro st
      simp only [List.map_cons, mergeParamsFold, List.foldlM_cons]
      cases hp : s.params.foldlM (mergeStep pol res cd ca) st with
      | error e => simp [stripRet, hp, except_bind_err, except_bind_err_eta]
      | ok st1 =>
          simp only [stripRet, hp, except_bind_ok, except_bind_ok_eta]
          exact ih st1

theorem ldr_strip : ∀ sigs : List Signature,
    lastDeclaredRet (sigs.map stripRet) = none := by
  intro sigs
  induction sigs with
  | nil => rfl
  | cons s rest ih => simp [lastDeclaredRet, ih, stripRet]

/-- C6: the merged signature's return annotation is the right-most
non-empty source return annotation (empty when none declares one), and
return annotations never influence success or failure of the merge:
stripping them from every source leaves the merged parameters and any
raised conflict unchanged. -/
theorem merge_return_annot_last_nonempty :
    (∀ (sigs : List Signature) (pol : Policy) (res : Resolver) (cd ca : Bool)
        (s : Signature),
      merge_signatures sigs pol res cd ca = .ok s →
        s.retAnnot = lastDeclaredRet sigs) ∧
    (∀ (sigs : List Signature) (pol : Policy) (res : Resolver) (cd ca : Bool),
      merge_signatures (sigs.map stripRet) pol res cd ca =
        (merge_signatures sigs pol res cd ca).map fun s => ⟨s.params, none⟩) := by
  constructor
  · intro sigs pol res cd ca s hs
    cases sigs with
    | nil => simp [merge_signatures] at hs
    | cons a rest =>
        unfold merge_signatures at hs
        rw [merge_factor] at hs
        cases hp : mergeParamsFold pol res cd ca (a :: rest)
            ⟨_initial_parameter_buckets, [], []⟩ with
        | error e => rw [hp] at hs; cases hs
        | ok st' =>
            rw [hp] at hs
            simp only [Except.map, except_bind_ok, except_bind_ok_eta] at hs
            cases hs
            cases hl : lastDeclaredRet (a :: rest) <;> simp [hl]
  · intro sigs pol res cd ca
    cases sigs with
    | nil => rfl
    | cons a rest =>
        unfold merge_signatures
        simp only [List.map_cons]
        rw [merge_factor, merge_factor, ← List.map_cons stripRet a rest,
          params_fold_strip, ldr_strip]
        cases hp : mergeParamsFold pol res cd ca (a :: rest)
            ⟨_initial_parameter_buckets, [], []⟩ with
        | error e => simp [Except.map, except_bind_err, except_bind_err_eta]
        | ok st' => simp [Except.map, except_bind_ok, except_bind_ok_eta]

theorem merge_return_annot_last_nonempty_witness :
    merge_signatures [⟨[], some (.vstr "int")⟩, ⟨[], none⟩] .preferFirst
        .raiseResolver true true = .ok ⟨[], some (.vstr "int")⟩ ∧
    (⟨[], some (.vstr "int")⟩ : Signature).retAnnot =
      lastDeclaredRet [⟨[], some (.vstr "int")⟩, ⟨[], none⟩] :=
  ⟨by rfl,
   merge_return_annot_last_nonempty.1 [⟨[], some (.vstr "int")⟩, ⟨[], none⟩]
     .preferFirst .raiseResolver true true ⟨[], some (.vstr "int")⟩ (by rfl)⟩

theorem get_set_eq (b : Buckets) (k : ParamKind) (l : List Parameter) :
    (b.set k l).get k = l := by
  cases k <;> rfl

theorem get_set_ne (b : Buckets) (k k' : ParamKind) (l : List Parameter)
    (h : k' ≠ k) : (b.set k l).get k' = b.get k' := by
  cases k <;> cases k' <;> simp_all [Buckets.set, Buckets.get]

theorem lookup_append {β : Type} (n : String) (l₁ l₂ : List (String × β)) :
    List.lookup n (l₁ ++ l₂) =
      match List.lookup n l₁ with
      | some v => some v
      | none => List.lookup n l₂ := by
  induction l₁ with
  | nil => rfl
  | cons e rest ih =>
      by_cases he : n = e.1
      · have hb : (n == e.1) = true := beq_iff_eq.mpr he
        simp [List.lookup, hb]
      · have hb : (n == e.1) = false := by simpa using he
        simp [List.lookup, hb, ih]

theorem lookup_updateAssoc_ne {β : Type} (l : List (String × β)) (key n : String)
    (v : β) (h : n ≠ key) :
    List.lookup n (updateAssoc l key v) = List.lookup n l := by
  unfold updateAssoc
  induction l with
  | nil => rfl
  | cons e rest ih =>
      simp only [List.map_cons]
      by_cases he : e.1 = key
      · rw [if_pos he]
        have hb : (n == key) = false := by simpa using h
        have hb2 : (n == e.1) = false := by rw [he]; exact hb
        simp [List.lookup, hb, hb2, ih]
      · rw [if_neg he]
        by_cases hn : n = e.1
        · have hb : (n == e.1) = true := beq_iff_eq.mpr hn
          simp [List.lookup, hb]
        · have hb : (n == e.1) = false := by simpa using hn
          simp [List.lookup, hb, ih]

theorem lookup_updateAssoc_eq {β : Type} (l : List (String × β)) (n : String)
    (v w : β) (h : List.lookup n l = some w) :
    List.lookup n (updateAssoc l n v) = some v := by
  unfold updateAssoc
  induction l with
  | nil => cases h
  | cons e rest ih =>
      simp only [List.map_cons]
      by_cases he : e.1 = n
      · rw [if_pos he]
        have hb : (n == n) = true := beq_iff_eq.mpr rfl
        simp [List.lookup, hb]
      · rw [if_neg he]
        have hb : (n == e.1) = false := by
          simpa using fun hc => he hc.symm
        simp only [List.lookup, hb] at h ⊢
        exact ih h

theorem lookup_updateAssoc_isSome {β : Type} (l : List (String × β))
    (key n : String) (v : β) :
    (List.lookup n (updateAssoc l key v)).isSome = (List.lookup n l).isSome := by
  unfold updateAssoc
  induction l with
  | nil => rfl
  | cons e rest ih =>
      simp only [List.map_cons]
      by_cases he : e.1 = key
      · rw [if_pos he]
        by_cases hn : n = key
        · have hb : (n == key) = true := beq_iff_eq.mpr hn
          have hb2 : (n == e.1) = true := by rw [he]; exact hb
          simp [List.lookup, hb, hb2]
        · have hb : (n == key) = false := by simpa using hn
          have hb2 : (n == e.1) = false := by rw [he]; exact hb
          simp [List.lookup, hb, hb2, ih]
      · rw [if_neg he]
        by_cases hn : n = e.1
        · have hb : (n == e.1) = true := beq_iff_eq.mpr hn
          simp [List.lookup, hb]
        · have hb : (n == e.1) = false := by simpa using hn
          simp [List.lookup, hb, ih]

theorem bwf_initial : BucketsWF _initial_parameter_buckets := by
  intro k p hp
  cases k <;> simp [_initial_parameter_buckets, Buckets.get] at hp

theorem bwf_append (b : Buckets) (k : ParamKind) (p : Parameter)
    (hw : BucketsWF b) (hp : p.kind = k) : BucketsWF (bucketAppend b k p) := by
  intro k' q hq
  unfold bucketAppend at hq
  by_cases hk : k' = k
  · subst hk
    rw [get_set_eq] at hq
    rcases List.mem_append.mp hq with h | h
    · exact hw k' q h
    · rw [List.mem_singleton.mp h]
      exact hp
  · rw [get_set_ne _ _ _ _ hk] at hq
    exact hw k' q hq

theorem bwf_replace (b : Buckets) (k : ParamKind) (nm : String) (m : Parameter)
    (hw : BucketsWF b) (hm : m.kind = k) : BucketsWF (bucketReplace b k nm m) := by
  intro k' q hq
  unfold bucketReplace at hq
  by_cases hk : k' = k
  · subst hk
    rw [get_set_eq] at hq
    rcases List.mem_map.mp hq with ⟨r, hr, hrq⟩
    by_cases hrn : r.name = nm
    · rw [if_pos hrn] at hrq
      rw [← hrq]
      exact hm
    · rw [if_neg hrn] at hrq
      rw [← hrq]
      exact hw k' r hr
  · rw [get_set_ne _ _ _ _ hk] at hq
    exact hw k' q hq

theorem bwf_delete (b : Buckets) (k : ParamKind) (nm : String)
    (hw : BucketsWF b) : BucketsWF (bucketDelete b k nm) := by
  intro k' q hq
  unfold bucketDelete at hq
  by_cases hk : k' = k
  · subst hk
    rw [get_set_eq] at hq
    exact hw k' q (List.mem_of_mem_filter hq)
  · rw [get_set_ne _ _ _ _ hk] at hq
    exact hw k' q hq

theorem pairwise_all_kind (l : List Parameter) (k : ParamKind)
    (h : ∀ p ∈ l, p.kind = k) :
    List.Pairwise (fun p q => kindRank p.kind ≤ kindRank q.kind) l := by
  induction l with
  | nil => exact List.Pairwise.nil
  | cons p rest ih =>
      refine List.Pairwise.cons ?_ (ih fun q hq => h q (List.mem_cons_of_mem _ hq))
      intro q hq
      rw [h p (List.mem_cons_self _ _), h q (List.mem_cons_of_mem _ hq)]

theorem iter_pairwise (b : Buckets) (hw : BucketsWF b) :
    List.Pairwise (fun p q => kindRank p.kind ≤ kindRank q.kind)
      (_iter_bucketed_parameters b) := by
  have hexp : _iter_bucketed_parameters b =
      b.get .positionalOnly ++ (b.get .positionalOrKeyword ++ (b.get .varPositional
        ++ (b.get .keywordOnly ++ (b.get .varKeyword ++ [])))) := rfl
  rw [hexp]
  have base : ∀ (k k' : ParamKind), kindRank k ≤ kindRank k' →
      ∀ q ∈ b.get k', kindRank k ≤ kindRank q.kind := by
    intro k k' hkk q hq
    rw [hw k' q hq]
    exact hkk
  have hmem : ∀ (k : ParamKind) (l1 l2 : List Parameter),
      (∀ q ∈ l1, kindRank k ≤ kindRank q.kind) →
      (∀ q ∈ l2, kindRank k ≤ kindRank q.kind) →
      ∀ q ∈ l1 ++ l2, kindRank k ≤ kindRank q.kind := by
    intro k l1 l2 h1 h2 q hq
    rcases List.mem_append.mp hq with h | h
    · exact h1 q h
    · exact h2 q h
  have key : ∀ (k : ParamKind) (tail : List Parameter),
      (∀ q ∈ tail, kindRank k ≤ kindRank q.kind) →
      List.Pairwise (fun p q => kindRank p.kind ≤ kindRank q.kind) tail →
      List.Pairwise (fun p q => kindRank p.kind ≤ kindRank q.kind) (b.get k ++ tail) := by
    intro k tail hle htail
    rw [List.pairwise_append]
    refine ⟨pairwise_all_kind _ k (fun p hp => hw k p hp), htail, ?_⟩
    intro p hp q hq
    rw [hw k p hp]
    exact hle q hq
  have m5 : ∀ q ∈ ([] : List Parameter), kindRank ParamKind.varKeyword ≤ kindRank q.kind := by
    simp
  have h4 := key .varKeyword [] m5 List.Pairwise.nil
  have m4 : ∀ q ∈ b.get .varKeyword ++ [],
      kindRank ParamKind.keywordOnly ≤ kindRank q.kind :=
    hmem _ _ _ (base _ _ (by decide)) (by simp)
  have h3 := key .keywordOnly _ m4 h4
  have m3 : ∀ q ∈ b.get .keywordOnly ++ (b.get .varKeyword ++ []),
      kindRank ParamKind.varPositional ≤ kindRank q.kind :=
    hmem _ _ _ (base _ _ (by decide))
      (fun q hq => Nat.le_trans (by decide) (m4 q hq))
  have h2 := key .varPositional _ m3 h3
  have m2 : ∀ q ∈ b.get .varPositional ++ (b.get .keywordOnly ++ (b.get .varKeyword ++ [])),
      kindRank ParamKind.positionalOrKeyword ≤ kindRank q.kind :=
    hmem _ _ _ (base _ _ (by decide))
      (fun q hq => Nat.le_trans (by decide) (m3 q hq))
  have h1 := key .positionalOrKeyword _ m2 h2
  have m1 : ∀ q ∈ b.get .positionalOrKeyword ++ (b.get .varPositional
      ++ (b.get .keywordOnly ++ (b.get .varKeyword ++ []))),
      kindRank ParamKind.positionalOnly ≤ kindRank q.kind :=
    hmem _ _ _ (base _ _ (by decide))
      (fun q hq => Nat.le_trans (by decide) (m2 q hq))
  exact key .positionalOnly _ m1 h1

theorem foldlM_preserve {β : Type} (f : MergeState → β → Except PyError MergeState)
    (P : MergeState → Prop)
    (hf : ∀ st b st', f st b = .ok st' → P st → P st') :
    ∀ (l : List β) (st st' : MergeState), l.foldlM f st = .ok st' → P st → P st' := by
  intro l
  induction l with
  | nil =>
      intro st st' h hp
      rw [List.foldlM_nil] at h
      cases h
      exact hp
  | cons x rest ih =>
      intro st st' h hp
      rw [List.foldlM_cons] at h
      cases hx : f st x with
      | error e =>
          rw [hx, except_bind_err] at h
          cases h
      | ok st1 =>
          rw [hx, except_bind_ok] at h
          exact ih st1 st' h (hf st x st1 hx hp)

theorem step_bwf (pol : Policy) (res : Resolver) (cd ca : Bool)
    (st : MergeState) (p : Parameter) (st' : MergeState)
    (h : mergeStep pol res cd ca st p = .ok st')
    (hw : BucketsWF st.buckets) : BucketsWF st'.buckets := by
  unfold mergeStep at h
  cases hl : List.lookup p.name st.nameToParameter with
  | none =>
      simp only [hl] at h
      cases h
      exact bwf_append _ _ _ hw rfl
  | some existing =>
      simp only [hl] at h
      cases hm : _merge_parameter_metadata p.name existing p pol res cd ca with
      | error e =>
          simp only [hm, except_bind_err] at h
          cases h
      | ok m =>
          simp only [hm, except_bind_ok] at h
          by_cases hkk : (List.lookup p.name st.nameToKind).getD existing.kind = m.kind
          · rw [if_pos hkk] at h
            cases h
            exact bwf_replace _ _ _ _ hw hkk.symm
          · rw [if_neg hkk] at h
            cases h
            exact bwf_append _ _ _ (bwf_delete _ _ _ hw) rfl

theorem lookup_single {β : Type} (n key : String) (v w : β)
    (h : List.lookup n [(key, v)] = some w) : n = key ∧ w = v := by
  simp only [List.lookup] at h
  cases hbeq : (n == key) with
  | true =>
      rw [hbeq] at h
      exact ⟨beq_iff_eq.mp hbeq, (Option.some.inj h).symm⟩
  | false =>
      rw [hbeq] at h
      cases h

/-- Replacing the parameter stored under `nm` with one named `nm` leaves the
bucket's name sequence unchanged. -/
theorem map_name_replace (l : List Parameter) (nm : String) (m : Parameter)
    (hm : m.name = nm) :
    (l.map fun q => if q.name = nm then m else q).map Parameter.name =
      l.map Parameter.name := by
  induction l with
  | nil => rfl
  | cons q rest ih =>
      simp only [List.map_cons, ih]
      by_cases hq : q.name = nm
      · rw [if_pos hq, hm, hq]
      · rw [if_neg hq]

theorem init_inv : StInv ⟨_initial_parameter_buckets, [], []⟩ [] := by
  constructor
  · intro n p h; cases h
  · intro n p h; cases h
  · intro n _; rfl
  · intro n; simp [List.lookup]
  · intro k; cases k <;> simp [_initial_parameter_buckets, Buckets.get]

/-- A successful `_merge_parameter_metadata` under the raising resolver and
prefer-first policy had no conflicts, so the result keeps the existing
parameter's name and kind. -/
theorem metadata_raise_ok (nm : String) (ex inc : Parameter) (cd ca : Bool)
    (m : Parameter)
    (h : _merge_parameter_metadata nm ex inc .preferFirst .raiseResolver cd ca =
      .ok m) : m.name = ex.name ∧ m.kind = ex.kind := by
  unfold _merge_parameter_metadata at h
  by_cases hc : (_detect_parameter_conflicts (_apply_policy ex inc .preferFirst).1
      (_apply_policy ex inc .preferFirst).2 cd ca).isEmpty
  · rw [if_pos hc] at h
    cases h
    exact ⟨rfl, rfl⟩
  · rw [if_neg hc] at h
    simp [_resolve_parameter_conflict] at h

theorem step_inv (cd ca : Bool) (st : MergeState) (p : Parameter)
    (st' : MergeState) (seen : List String)
    (h : mergeStep .preferFirst .raiseResolver cd ca st p = .ok st')
    (hi : StInv st seen) : StInv st' (seenFold seen p.name) := by
  unfold mergeStep at h
  cases hl : List.lookup p.name st.nameToParameter with
  | none =>
      simp only [hl] at h
      cases h
      have hnotin : p.name ∉ seen := by
        intro hmem
        have hs := (hi.mem_seen p.name).mpr hmem
        rw [hl] at hs
        cases hs
      have hsf : seenFold seen p.name = seen ++ [p.name] := by
        simp [seenFold, hnotin]
      rw [hsf]
      constructor
      · intro n q hq
        rw [lookup_append] at hq
        cases hln : List.lookup n st.nameToParameter with
        | some w =>
            simp only [hln] at hq
            rw [← Option.some.inj hq]
            exact hi.lookup_name n w hln
        | none =>
            simp only [hln] at hq
            rcases lookup_single n p.name p q hq with ⟨hn, hw⟩
            rw [hw, hn]
      · intro n q hq
        rw [lookup_append] at hq
        rw [lookup_append]
        cases hln : List.lookup n st.nameToParameter with
        | some w =>
            simp only [hln] at hq
            rw [hi.lookup_kind n w hln, ← Option.some.inj hq]
        | none =>
            simp only [hln] at hq
            rcases lookup_single n p.name p q hq with ⟨hn, hw⟩
            rw [hi.kind_none n hln, hw, hn]
            simp [List.lookup]
      · intro n hq
        rw [lookup_append] at hq
        rw [lookup_append]
        cases hln : List.lookup n st.nameToParameter with
        | some w =>
            simp only [hln] at hq
            cases hq
        | none =>
            simp only [hln] at hq
            rw [hi.kind_none n hln]
            simp only [List.lookup] at hq ⊢
            cases hbeq : (n == p.name) with
            | true => rw [hbeq] at hq; cases hq
            | false => rfl
      · intro n
        rw [lookup_append]
        cases hln : List.lookup n st.nameToParameter with
        | some w =>
            simp only [Option.isSome_some, true_iff]
            exact List.mem_append_left _ ((hi.mem_seen n).mp (by rw [hln]; rfl))
        | none =>
            have hnn : n ∉ seen := fun hmem => by
              have hs := (hi.mem_seen n).mpr hmem
              rw [hln] at hs
              cases hs
            simp only [List.lookup, List.mem_append, List.mem_singleton]
            cases hbeq : (n == p.name) with
            | true =>
                simp only [Option.isSome_some, true_iff]
                exact Or.inr (beq_iff_eq.mp hbeq)
            | false =>
                simp only [Option.isSome_none]
                constructor
                · intro hfalse; cases hfalse
                · intro hor
                  rcases hor with hmem | hemem
                  · exact absurd hmem hnn
                  · exact absurd hemem (by simpa using hbeq)
      · intro k
        unfold bucketAppend
        by_cases hk : k = p.kind
        · subst hk
          rw [get_set_eq, List.map_append]
          exact (hi.bucket_sub p.kind).append (List.Sublist.refl _)
        · rw [get_set_ne _ _ _ _ hk]
          exact (hi.bucket_sub k).trans (List.sublist_append_left seen [p.name])
  | some existing =>
      simp only [hl] at h
      cases hm : _merge_parameter_metadata p.name existing p .preferFirst
          .raiseResolver cd ca with
      | error e =>
          simp only [hm, except_bind_err] at h
          cases h
      | ok m =>
          rcases metadata_raise_ok p.name existing p cd ca m hm with ⟨hmn, hmk⟩
          have hexname : existing.name = p.name := hi.lookup_name p.name existing hl
          have hkindl : List.lookup p.name st.nameToKind = some existing.kind :=
            hi.lookup_kind p.name existing hl
          simp only [hm, except_bind_ok, hkindl, Option.getD_some] at h
          rw [if_pos hmk.symm] at h
          cases h
          have hinseen : p.name ∈ seen := (hi.mem_seen p.name).mp (by rw [hl]; rfl)
          have hsf : seenFold seen p.name = seen := by simp [seenFold, hinseen]
          rw [hsf]
          constructor
          · intro n q hq
            by_cases hn : n = p.name
            · subst hn
              rw [lookup_updateAssoc_eq st.nameToParameter p.name m existing hl] at hq
              cases hq
              rw [hmn, hexname]
            · rw [lookup_updateAssoc_ne _ _ _ _ hn] at hq
              exact hi.lookup_name n q hq
          · intro n q hq
            by_cases hn : n = p.name
            · subst hn
              rw [lookup_updateAssoc_eq st.nameToParameter p.name m existing hl] at hq
              cases hq
              rw [hkindl, hmk]
            · rw [lookup_updateAssoc_ne _ _ _ _ hn] at hq
              exact hi.lookup_kind n q hq
          · intro n hq
            by_cases hn : n = p.name
            · subst hn
              rw [lookup_updateAssoc_eq st.nameToParameter p.name m existing hl] at hq
              cases hq
            · rw [lookup_updateAssoc_ne _ _ _ _ hn] at hq
              exact hi.kind_none n hq
          · intro n
            rw [lookup_updateAssoc_isSome]
            exact hi.mem_seen n
          · intro k
            unfold bucketReplace
            by_cases hk : k = existing.kind
            · subst hk
              rw [get_set_eq, map_name_replace _ _ _ (hmn.trans hexname)]
              exact hi.bucket_sub existing.kind
            · rw [get_set_ne _ _ _ _ hk]
              exact hi.bucket_sub k

theorem steps_inv (cd ca : Bool) :
    ∀ (ps : List Parameter) (st : MergeState) (seen : List String) (st' : MergeState),
      ps.foldlM (mergeStep .preferFirst .raiseResolver cd ca) st = .ok st' →
      StInv st seen →
      StInv st' (ps.foldl (fun acc q => seenFold acc q.name) seen) := by
  intro ps
  induction ps with
  | nil =>
      intro st seen st' h hi
      rw [List.foldlM_nil] at h
      cases h
      exact hi
  | cons x rest ih =>
      intro st seen st' h hi
      rw [List.foldlM_cons] at h
      cases hx : mergeStep .preferFirst .raiseResolver cd ca st x with
      | error e =>
          rw [hx, except_bind_err] at h
          cases h
      | ok st1 =>
          rw [hx, except_bind_ok] at h
          exact ih st1 (seenFold seen x.name) st' h
            (step_inv cd ca st x st1 seen hx hi)

theorem sigs_inv (cd ca : Bool) :
    ∀ (sigs : List Signature) (st : MergeState) (seen : List String) (st' : MergeState),
      mergeParamsFold .preferFirst .raiseResolver cd ca sigs st = .ok st' →
      StInv st seen →
      StInv st' (sigs.foldl
        (fun acc s => s.params.foldl (fun a q => seenFold a q.name) acc) seen) := by
  intro sigs
  induction sigs with
  | nil =>
      intro st seen st' h hi
      cases h
      exact hi
  | cons s rest ih =>
      intro st seen st' h hi
      unfold mergeParamsFold at h
      rw [List.foldlM_cons] at h
      cases hs : s.params.foldlM (mergeStep .preferFirst .raiseResolver cd ca) st with
      | error e =>
          rw [hs, except_bind_err] at h
          cases h
      | ok st1 =>
          rw [hs, except_bind_ok] at h
          exact ih st1 _ st' h (steps_inv cd ca s.params st seen st1 hs hi)

theorem fsn_flat : ∀ (sigs : List Signature) (acc : List String),
    ((sigs.map Signature.params).flatten).foldl (fun x q => seenFold x q.name) acc =
      sigs.foldl (fun acc s => s.params.foldl (fun a q => seenFold a q.name) acc) acc := by
  intro sigs
  induction sigs with
  | nil => intro acc; rfl
  | cons s rest ih =>
      intro acc
      simp only [List.map_cons, List.flatten_cons, List.foldl_append, List.foldl_cons]
      rw [ih]

theorem fsn_eq (sigs : List Signature) (acc : List String) :
    ((sigs.map Signature.params).flatten.map Parameter.name).foldl seenFold acc =
      sigs.foldl (fun acc s => s.params.foldl (fun a q => seenFold a q.name) acc) acc := by
  rw [List.foldl_map]
  exact fsn_flat sigs acc

theorem merge_ok_bwf (pol : Policy) (res : Resolver) (cd ca : Bool)
    (sigs : List Signature) (st st' : MergeState)
    (h : mergeParamsFold pol res cd ca sigs st = .ok st')
    (hw : BucketsWF st.buckets) : BucketsWF st'.buckets := by
  unfold mergeParamsFold at h
  refine foldlM_preserve _ (fun st => BucketsWF st.buckets) ?_ sigs st st' h hw
  intro st s st' hs hws
  refine foldlM_preserve _ (fun st => BucketsWF st.buckets) ?_ s.params st st' hs hws
  intro st p st' hp hwp
  exact step_bwf pol res cd ca st p st' hp hwp

theorem filter_all_kind (l : List Parameter) (k k' : ParamKind)
    (h : ∀ p ∈ l, p.kind = k) :
    l.filter (fun p => p.kind == k') = if k = k' then l else [] := by
  induction l with
  | nil => simp
  | cons p rest ih =>
      have hp : p.kind = k := h p (List.mem_cons_self _ _)
      have hrest := ih fun q hq => h q (List.mem_cons_of_mem _ hq)
      by_cases hkk : k = k'
      · subst hkk
        rw [if_pos rfl] at hrest
        simp [List.filter_cons, hp, hrest]
      · rw [if_neg hkk] at hrest
        have hb : (p.kind == k') = false := by
          rw [hp]
          simpa using hkk
        simp [List.filter_cons, hb, hrest, hkk]

theorem filter_iter (b : Buckets) (hw : BucketsWF b) (k : ParamKind) :
    (_iter_bucketed_parameters b).filter (fun p => p.kind == k) = b.get k := by
  have hexp : _iter_bucketed_parameters b =
      b.get .positionalOnly ++ (b.get .positionalOrKeyword ++ (b.get .varPositional
        ++ (b.get .keywordOnly ++ (b.get .varKeyword ++ [])))) := rfl
  rw [hexp, List.filter_append, List.filter_append, List.filter_append,
    List.filter_append, List.filter_append,
    filter_all_kind _ _ _ (fun p hp => hw .positionalOnly p hp),
    filter_all_kind _ _ _ (fun p hp => hw .positionalOrKeyword p hp),
    filter_all_kind _ _ _ (fun p hp => hw .varPositional p hp),
    filter_all_kind _ _ _ (fun p hp => hw .keywordOnly p hp),
    filter_all_kind _ _ _ (fun p hp => hw .varKeyword p hp)]
  cases k <;> simp

/-- C3 (amended): every successful merge output is ordered by parameter
kind (positional-only, positional-or-keyword, variadic-positional,
keyword-only, variadic-keyword) whatever the options; and under
`policy=prefer-first` with the default raising `on_conflict`, the names of
the output parameters of each kind form a subsequence of the order in
which parameter names were first seen while walking the sources. -/
theorem merge_kind_order_and_first_seen :
    (∀ (sigs : List Signature) (pol : Policy) (res : Resolver) (cd ca : Bool)
        (s : Signature),
      merge_signatures sigs pol res cd ca = .ok s →
        List.Pairwise (fun p q => kindRank p.kind ≤ kindRank q.kind) s.params) ∧
    (∀ (sigs : List Signature) (cd ca : Bool) (s : Signature),
      merge_signatures sigs .preferFirst .raiseResolver cd ca = .ok s →
        ∀ k : ParamKind,
          ((s.params.filter fun p => p.kind == k).map Parameter.name).Sublist
            (firstSeenNames sigs)) := by
  constructor
  · intro sigs pol res cd ca s hs
    cases sigs with
    | nil => simp [merge_signatures] at hs
    | cons a rest =>
        unfold merge_signatures at hs
        rw [merge_factor] at hs
        cases hp : mergeParamsFold pol res cd ca (a :: rest)
            ⟨_initial_parameter_buckets, [], []⟩ with
        | error e => rw [hp] at hs; cases hs
        | ok st' =>
            rw [hp] at hs
            simp only [Except.map, except_bind_ok, except_bind_ok_eta] at hs
            cases hs
            exact iter_pairwise st'.buckets
              (merge_ok_bwf pol res cd ca (a :: rest) _ st' hp bwf_initial)
  · intro sigs cd ca s hs k
    cases sigs with
    | nil => simp [merge_signatures] at hs
    | cons a rest =>
        unfold merge_signatures at hs
        rw [merge_factor] at hs
        cases hp : mergeParamsFold .preferFirst .raiseResolver cd ca (a :: rest)
            ⟨_initial_parameter_buckets, [], []⟩ with
        | error e => rw [hp] at hs; cases hs
        | ok st' =>
            rw [hp] at hs
            simp only [Except.map, except_bind_ok, except_bind_ok_eta] at hs
            cases hs
            have hw : BucketsWF st'.buckets :=
              merge_ok_bwf .preferFirst .raiseResolver cd ca (a :: rest) _ st' hp
                bwf_initial
            have hinv := sigs_inv cd ca (a :: rest) _ [] st' hp init_inv
            rw [filter_iter st'.buckets hw k]
            have hsub := hinv.bucket_sub k
            have hfsn : firstSeenNames (a :: rest) =
                (a :: rest).foldl
                  (fun acc s => s.params.foldl (fun x q => seenFold x q.name) acc) [] :=
              fsn_eq (a :: rest) []
            rw [hfsn]
            exact hsub

/-- C3 counterexample: with options that do not raise
(`on_conflict="prefer-annotated"`, `policy="prefer-first"`), resolving the
kind conflict on `a` moves it to the end of the keyword-only bucket, so the
keyword-only parameters come out in the order `b, a` even though `a`'s name
was first seen before `b`'s: the within-kind first-seen ordering claimed
for all non-raising merges fails at this input. -/
theorem merge_within_kind_first_seen_violated :
    (merge_signatures [cexSigA, cexSigB] .preferFirst .preferAnnotated true true).map
      (fun s => s.params.map fun p => (p.name, p.kind)) =
      .ok [("b", ParamKind.keywordOnly), ("a", ParamKind.keywordOnly)] ∧
    firstSeenNames [cexSigA, cexSigB] = ["a", "b"] ∧
    ¬ (["b", "a"] : List String).Sublist ["a", "b"] := by
  refine ⟨by rfl, by rfl, ?_⟩
  decide

theorem merge_kind_order_and_first_seen_witness :
    merge_signatures [⟨[⟨"a", .positionalOrKeyword, none, none⟩], none⟩,
        ⟨[⟨"b", .keywordOnly, none, none⟩], none⟩] .preferFirst .raiseResolver
        true true =
      .ok ⟨[⟨"a", .positionalOrKeyword, none, none⟩,
            ⟨"b", .keywordOnly, none, none⟩], none⟩ ∧
    List.Pairwise (fun p q => kindRank p.kind ≤ kindRank q.kind)
      (Signature.params ⟨[⟨"a", .positionalOrKeyword, none, none⟩,
        ⟨"b", .keywordOnly, none, none⟩], none⟩) ∧
    ((((⟨[⟨"a", .positionalOrKeyword, none, none⟩,
        ⟨"b", .keywordOnly, none, none⟩], none⟩ : Signature)).params.filter
          fun p => p.kind == ParamKind.keywordOnly).map Parameter.name).Sublist
      (firstSeenNames [⟨[⟨"a", .positionalOrKeyword, none, none⟩], none⟩,
        ⟨[⟨"b", .keywordOnly, none, none⟩], none⟩]) :=
  ⟨by rfl,
   merge_kind_order_and_first_seen.1
     [⟨[⟨"a", .positionalOrKeyword, none, none⟩], none⟩,
      ⟨[⟨"b", .keywordOnly, none, none⟩], none⟩]
     .preferFirst .raiseResolver true true _ (by rfl),
   merge_kind_order_and_first_seen.2
     [⟨[⟨"a", .positionalOrKeyword, none, none⟩], none⟩,
      ⟨[⟨"b", .keywordOnly, none, none⟩], none⟩]
     true true _ (by rfl) ParamKind.keywordOnly⟩

/-! ## Call snapshots (C2) -/

theorem runStages_snapshots (arguments : List (String × Binding)) :
    ∀ (funcs : List PyFunc) (remaining : List (String × Val))
      (snaps : List CallVars) (leftover : List (String × Val)),
      runStagesAux funcs arguments remaining = (snaps, .ok leftover) →
      snaps.length = funcs.length ∧
      ∀ (i : Nat) (h1 : i < snaps.length) (h2 : i < funcs.length),
        (snaps.get ⟨i, h1⟩).result =
          (funcs.get ⟨i, h2⟩).body (snaps.get ⟨i, h1⟩).args
            (snaps.get ⟨i, h1⟩).kwargs ∧
        (snaps.get ⟨i, h1⟩).arguments =
          restrictArguments (funcs.get ⟨i, h2⟩).sig arguments ∧
        ∃ extra bound,
          _bind_arguments (funcs.get ⟨i, h2⟩).sig arguments extra = .ok bound ∧
          (snaps.get ⟨i, h1⟩).args = boundArgsOf (funcs.get ⟨i, h2⟩).sig.params bound ∧
          (snaps.get ⟨i, h1⟩).kwargs =
            boundKwargsOf (funcs.get ⟨i, h2⟩).sig.params bound false := by
  intro funcs
  induction funcs with
  | nil =>
      intro remaining snaps leftover h
      unfold runStagesAux at h
      rcases Prod.mk.inj h with ⟨h1, _⟩
      subst h1
      refine ⟨rfl, ?_⟩
      intro i hi _
      exact absurd hi (by simp)
  | cons f rest ih =>
      intro remaining snaps leftover h
      unfold runStagesAux at h
      cases hro : runOneFunc f arguments remaining with
      | error e =>
          rw [hro] at h
          rcases Prod.mk.inj h with ⟨_, h2⟩
          cases h2
      | ok fr =>
          rw [hro] at h
          rcases Prod.mk.inj h with ⟨h1, h2⟩
          subst h1
          rcases ih fr.leftover (runStagesAux rest arguments fr.leftover).1 leftover
            (by rw [← h2]) with ⟨hlen, hprops⟩
          have hfr : fr.vars.result = f.body fr.vars.args fr.vars.kwargs ∧
              fr.vars.arguments = restrictArguments f.sig arguments ∧
              ∃ extra bound,
                _bind_arguments f.sig arguments extra = .ok bound ∧
                fr.vars.args = boundArgsOf f.sig.params bound ∧
                fr.vars.kwargs = boundKwargsOf f.sig.params bound false := by
            unfold runOneFunc at hro
            cases hba : _bind_arguments f.sig arguments
                (_drop_unknown_kwargs f.sig remaining).1 with
            | error e =>
                simp only [hba] at hro
                cases hro
            | ok bound =>
                simp only [hba] at hro
                cases hro
                exact ⟨rfl, rfl,
                  ⟨(_drop_unknown_kwargs f.sig remaining).1, bound, hba, rfl, rfl⟩⟩
          refine ⟨by simpa using hlen, ?_⟩
          intro i hi1 hi2
          cases i with
          | zero => exact hfr
          | succ j =>
              exact hprops j (by simpa using hi1) (by simpa using hi2)

/-- C2: every successful invocation of a `combine` composite records a Call
Snapshot for each source function in order: its sliced positional tuple and
sliced keyword mapping (the products of re-binding the shared post-default
arguments through that function's own signature), the post-default
bound-argument mapping restricted to names that function declares, and that
function's own return value on exactly the recorded slices. -/
theorem combine_records_call_snapshots (fs : List PyFunc) (nm doc : Option String)
    (c : Composite) (args : List Val) (kwargs : List (String × Val))
    (snaps : List CallVars) (r : Val) (ba : List (String × Binding))
    (hc : combine fs nm doc = .ok c)
    (hb : pyBind c.signatureAttr args kwargs false = .ok ba)
    (hr : runComposite c args kwargs = (snaps, .ok r)) :
    snaps.length = fs.length ∧
    ∀ (i : Nat) (h1 : i < snaps.length) (h2 : i < fs.length),
      (snaps.get ⟨i, h1⟩).result =
        (fs.get ⟨i, h2⟩).body (snaps.get ⟨i, h1⟩).args (snaps.get ⟨i, h1⟩).kwargs ∧
      (snaps.get ⟨i, h1⟩).arguments =
        restrictArguments (fs.get ⟨i, h2⟩).sig
          (applyDefaults c.signatureAttr ba) ∧
      ∃ extra bound,
        _bind_arguments (fs.get ⟨i, h2⟩).sig (applyDefaults c.signatureAttr ba)
          extra = .ok bound ∧
        (snaps.get ⟨i, h1⟩).args = boundArgsOf (fs.get ⟨i, h2⟩).sig.params bound ∧
        (snaps.get ⟨i, h1⟩).kwargs =
          boundKwargsOf (fs.get ⟨i, h2⟩).sig.params bound false := by
  have hfuncs : c.funcs = fs := by
    unfold combine at hc
    by_cases hemp : fs.isEmpty
    · rw [if_pos hemp] at hc
      cases hc
    · rw [if_neg hemp] at hc
      cases hm : merge_signatures (fs.map PyFunc.sig) .preferFirst .raiseResolver
          true true with
      | error e => rw [hm, except_bind_err] at hc; cases hc
      | ok m => rw [hm, except_bind_ok] at hc; cases hc; rfl
  unfold runComposite at hr
  simp only [hb] at hr
  cases ht : (runStagesAux c.funcs (applyDefaults c.signatureAttr ba) kwargs).2 with
  | error e =>
      simp only [ht] at hr
      rcases Prod.mk.inj hr with ⟨_, h2⟩
      cases h2
  | ok leftover =>
      simp only [ht] at hr
      by_cases hemp : leftover.isEmpty
      · rw [if_pos hemp] at hr
        rcases Prod.mk.inj hr with ⟨h1, _⟩
        have hrun : runStagesAux c.funcs (applyDefaults c.signatureAttr ba) kwargs =
            (snaps, .ok leftover) := by
          rw [← h1, ← ht]
        rw [hfuncs] at hrun
        exact runStages_snapshots (applyDefaults c.signatureAttr ba) fs kwargs
          snaps leftover hrun
      · rw [if_neg hemp] at hr
        rcases Prod.mk.inj hr with ⟨_, h2⟩
        cases h2

theorem combine_records_call_snapshots_witness :
    combine [varsPrimary, varsAudit] none none = .ok varsComposite ∧
    pyBind varsComposite.signatureAttr [.vint 1]
        [("flag", .vbool true), ("tracker", .vstr "T")] false =
      .ok [("x", .one (.vint 1)), ("flag", .one (.vbool true)),
           ("tracker", .one (.vstr "T"))] ∧
    ((runComposite varsComposite [.vint 1]
        [("flag", .vbool true), ("tracker", .vstr "T")]).1.length = 2) :=
  ⟨by rfl, by rfl,
   (combine_records_call_snapshots [varsPrimary, varsAudit] none none
      varsComposite [.vint 1] [("flag", .vbool true), ("tracker", .vstr "T")]
      (runComposite varsComposite [.vint 1]
        [("flag", .vbool true), ("tracker", .vstr "T")]).1
      (.vint 3)
      [("x", .one (.vint 1)), ("flag", .one (.vbool true)),
       ("tracker", .one (.vstr "T"))]
      (by rfl) (by rfl) (by rfl)).1⟩

end Signia
